import Mathlib

/-!
Digital signage backend: assignment and ordered delivery.

A shallow embedding of the request handlers of `src/index.js` (an Express
application over a PostgreSQL pool) together with the relational statements
they issue.

* A handler is a function from the database before the request to the HTTP
  reply and the database after it.
* Every `await db.query(...)` of a handler is numbered from `0` in program
  order.  A value `f : Faults` tells for each number whether the backend
  rejects that statement (connection loss, timeout, ...); a rejected
  statement throws, the `catch` block of the handler answers `500`, and the
  statements already executed stay committed, because each `db.query` is a
  statement of its own and the handlers open no transaction.
* Ids are natural numbers, `content_order` is an integer, the external
  player identity and the location are strings.  A field of a JSON body is an
  `Option`, `none` standing for an absent field.
-/

namespace Signage

/-! ## Rows and tables -/

/-- Row of table `players`. -/
structure Player where
  id : Nat
  player_id : String
  location : String
  status : String
deriving DecidableEq, Repr

/-- Row of table `playlists`. -/
structure Playlist where
  id : Nat
  name : String
  description : Option String
  updated_at : Nat
deriving DecidableEq, Repr

/-- Row of table `contents`. -/
structure Content where
  id : Nat
  filename : String
  original_name : String
  type : String
  url : String
deriving DecidableEq, Repr

/-- Row of table `playlist_contents`. -/
structure PlaylistContent where
  playlist_id : Nat
  content_id : Nat
  content_order : Int
deriving DecidableEq, Repr

/-- Row of table `player_playlists`; `player_id` is the internal id of the player. -/
structure PlayerPlaylist where
  player_id : Nat
  playlist_id : Nat
deriving DecidableEq, Repr

/-- The relational state.  A table is the list of its rows in insertion order.
`players_id_seq` is the last value handed out by the id sequence of `players`. -/
structure DB where
  players : List Player
  playlists : List Playlist
  contents : List Content
  playlist_contents : List PlaylistContent
  player_playlists : List PlayerPlaylist
  players_id_seq : Nat
deriving DecidableEq, Repr

/-! ## Replies -/

/-- What a handler sends: `res.status(status).json(body)` on the success paths,
`res.status(status).json({ error })` on the others. -/
inductive Reply (α : Type) where
  | ok (status : Nat) (body : α)
  | error (status : Nat) (error : String)
deriving DecidableEq, Repr

/-- The failure kinds of the specification. -/
inductive FailureKind where
  | InvalidInput
  | NotFound
  | Conflict
  | StorageFailure
deriving DecidableEq, Repr

/-- The failure kind a reply carries: `400` is `InvalidInput`, `404` is `NotFound`,
`409` is `Conflict`, any other error status is `StorageFailure`. -/
def Reply.failure {α : Type} : Reply α → Option FailureKind
  | .ok _ _ => none
  | .error status _ =>
    if status = 400 then some .InvalidInput
    else if status = 404 then some .NotFound
    else if status = 409 then some .Conflict
    else some .StorageFailure

/-- Which statements of a handler the backend rejects, by position. -/
abbrev Faults := Nat → Bool

/-- The backend that rejects nothing. -/
def noFault : Faults := fun _ => false

/-- The backend that rejects exactly the statement at position `k`. -/
def faultAt (k : Nat) : Faults := fun i => i == k

/-- The reply of every `catch` block. -/
def databaseError {α : Type} : Reply α := .error 500 "Database error"

/-! ## JavaScript truthiness of body fields -/

/-- JavaScript `!x` for a body field holding a number: absent and `0` are falsy. -/
def falsyNum : Option Nat → Bool
  | none => true
  | some n => n == 0

/-- JavaScript `!x` for a body field holding a string: absent and `""` are falsy. -/
def falsyStr : Option String → Bool
  | none => true
  | some s => s == ""

/-- JavaScript `x || 0` for the nullable integer returned by `MAX(...)`. -/
def orZero : Option Int → Int
  | none => 0
  | some n => if n = 0 then 0 else n

/-! ## Statements -/

/-- Statement `SELECT id FROM players WHERE player_id = $1`. -/
def selectPlayerIds (db : DB) (playerId : String) : List Nat :=
  (db.players.filter (fun p => p.player_id == playerId)).map (fun p => p.id)

/-- Statement `SELECT id FROM playlists WHERE id = $1`. -/
def selectPlaylistIds (db : DB) (playlistId : Nat) : List Nat :=
  (db.playlists.filter (fun pl => pl.id == playlistId)).map (fun pl => pl.id)

/-- Statement `DELETE FROM player_playlists WHERE player_id = $1`. -/
def deleteAssignments (db : DB) (playerDbId : Nat) : DB :=
  { db with player_playlists := db.player_playlists.filter (fun pp => !(pp.player_id == playerDbId)) }

/-- Modelled from the spec: the schema of `player_playlists` is not part of the
sources; the foreign keys of section 6 make the insert fail when the player or
the playlist does not exist.
`INSERT INTO player_playlists(player_id, playlist_id) VALUES($1, $2) RETURNING *`. -/
def insertAssignment (db : DB) (row : PlayerPlaylist) : Option (PlayerPlaylist × DB) :=
  if db.players.any (fun p => p.id == row.player_id) &&
      db.playlists.any (fun pl => pl.id == row.playlist_id) then
    some (row, { db with player_playlists := db.player_playlists ++ [row] })
  else none

/-- Statement `SELECT MAX(content_order) as last_order FROM playlist_contents WHERE playlist_id = $1`:
the single row of the result, `none` standing for SQL `NULL`. -/
def selectLastOrder (db : DB) (playlistId : Nat) : Option Int :=
  ((db.playlist_contents.filter (fun pc => pc.playlist_id == playlistId)).map
    (fun pc => pc.content_order)).max?

/-- Modelled from the spec: the schema of `playlist_contents` is not part of the
sources; the foreign keys of section 6 (the ones the `ON DELETE CASCADE`
comments of the delete handlers rely on) make the insert fail when the playlist
or the content does not exist.
`INSERT INTO playlist_contents(playlist_id, content_id, content_order) VALUES($1, $2, $3) RETURNING *`. -/
def insertPlaylistContent (db : DB) (row : PlaylistContent) : Option (PlaylistContent × DB) :=
  if db.playlists.any (fun pl => pl.id == row.playlist_id) &&
      db.contents.any (fun c => c.id == row.content_id) then
    some (row, { db with playlist_contents := db.playlist_contents ++ [row] })
  else none

/-- Modelled from the spec: the schema of `players` is not part of the sources;
section 4.3 makes `player_id` unique, and the id is the primary key drawn from
a sequence.  The insert fails on a duplicate `player_id` or a duplicate id.
`INSERT INTO players(player_id, location, status) VALUES($1, $2, $3) RETURNING *`. -/
def insertPlayer (db : DB) (playerId location status : String) : Option (Player × DB) :=
  let row : Player := ⟨db.players_id_seq + 1, playerId, location, status⟩
  if db.players.any (fun p => p.player_id == playerId || p.id == row.id) then none
  else some (row, { db with players := db.players ++ [row], players_id_seq := db.players_id_seq + 1 })

/-- Modelled from the spec: the schema is not part of the sources; section 6 and
the comment of the handler declare `ON DELETE CASCADE` from `playlists` into
`playlist_contents` and `player_playlists`.
`DELETE FROM playlists WHERE id = $1`. -/
def deletePlaylistRow (db : DB) (id : Nat) : DB :=
  { db with
    playlists := db.playlists.filter (fun pl => !(pl.id == id))
    playlist_contents := db.playlist_contents.filter (fun pc => !(pc.playlist_id == id))
    player_playlists := db.player_playlists.filter (fun pp => !(pp.playlist_id == id)) }

/-- Modelled from the spec: the schema is not part of the sources; section 6 and
the comment of the handler declare `ON DELETE CASCADE` from `contents` into
`playlist_contents`.
`DELETE FROM contents WHERE id = $1`. -/
def deleteContentRow (db : DB) (id : Nat) : DB :=
  { db with
    contents := db.contents.filter (fun c => !(c.id == id))
    playlist_contents := db.playlist_contents.filter (fun pc => !(pc.content_id == id)) }

/-- The columns `contentsQuery` selects from `contents`. -/
structure ContentView where
  id : Nat
  original_name : String
  type : String
  url : String
deriving DecidableEq, Repr

/-- The columns `playlistQuery` selects, plus the `contents` the handler attaches. -/
structure ResolvedPlaylist where
  playlist_id : Nat
  name : String
  description : Option String
  updated_at : Nat
  contents : List ContentView
deriving DecidableEq, Repr

/-- The select list `c.id, c.original_name, c.type, c.url`. -/
def Content.view (c : Content) : ContentView := ⟨c.id, c.original_name, c.type, c.url⟩

/-- The statement `playlistQuery` of the delivery handler:
`FROM player_playlists pp JOIN playlists pl ON pp.playlist_id = pl.id
JOIN players p ON pp.player_id = p.id WHERE p.player_id = $1`.
The `contents` field is empty here; the handler fills it. -/
def playlistQuery (db : DB) (playerId : String) : List ResolvedPlaylist :=
  db.player_playlists.flatMap fun pp =>
    (db.playlists.filter (fun pl => pp.playlist_id == pl.id)).flatMap fun pl =>
      ((db.players.filter (fun p => pp.player_id == p.id)).filter
        (fun p => p.player_id == playerId)).map fun _ =>
          (⟨pl.id, pl.name, pl.description, pl.updated_at, []⟩ : ResolvedPlaylist)

/-- The join of `contentsQuery` before `ORDER BY`:
`FROM playlist_contents pc JOIN contents c ON pc.content_id = c.id WHERE pc.playlist_id = $1`,
each row with its `pc.content_order`, in the order of `playlist_contents`. -/
def contentsJoin (db : DB) (playlistId : Nat) : List (Int × ContentView) :=
  (db.playlist_contents.filter (fun pc => pc.playlist_id == playlistId)).flatMap fun pc =>
    (db.contents.filter (fun c => pc.content_id == c.id)).map fun c => (pc.content_order, c.view)

/-- The statement `contentsQuery`: the join, `ORDER BY pc.content_order ASC`
(rows of equal order keep the order of the join), projected on the select list. -/
def contentsQuery (db : DB) (playlistId : Nat) : List ContentView :=
  ((contentsJoin db playlistId).insertionSort (fun a b => a.1 ≤ b.1)).map (fun a => a.2)

/-! ## Handlers -/

/-- Handler `POST /api/player/register`. -/
def register (f : Faults) (db : DB) (playerId location : Option String) : Reply Player × DB :=
  if falsyStr playerId || falsyStr location then
    (.error 400 "Player ID and Location are required", db)
  else if f 0 then (databaseError, db)
  else
    match insertPlayer db (playerId.getD "") (location.getD "") "online" with
    | none => (databaseError, db)
    | some (player, db1) => (.ok 201 player, db1)

/-- Handler `POST /api/players/:playerId/assign-playlist`. -/
def assignPlaylist (f : Faults) (db : DB) (playerId : String) (playlistId : Option Nat) :
    Reply PlayerPlaylist × DB :=
  if falsyNum playlistId then (.error 400 "Playlist ID is required", db)
  else if f 0 then (databaseError, db)
  else
    match selectPlayerIds db playerId with
    | [] => (.error 404 "Player not found", db)
    | playerDbId :: _ =>
      if f 1 then (databaseError, db)
      else
        match selectPlaylistIds db (playlistId.getD 0) with
        | [] => (.error 404 "Playlist not found", db)
        | _ :: _ =>
          if f 2 then (databaseError, db)
          else
            let db1 := deleteAssignments db playerDbId
            if f 3 then (databaseError, db1)
            else
              match insertAssignment db1 ⟨playerDbId, playlistId.getD 0⟩ with
              | none => (databaseError, db1)
              | some (assignment, db2) => (.ok 201 assignment, db2)

/-- Handler `POST /api/playlists/:playlistId/add-content`. -/
def addContent (f : Faults) (db : DB) (playlistId : Nat) (contentId : Option Nat) :
    Reply PlaylistContent × DB :=
  if falsyNum contentId then (.error 400 "Content ID is required", db)
  else if f 0 then (databaseError, db)
  else
    let nextOrder := orZero (selectLastOrder db playlistId) + 1
    if f 1 then (databaseError, db)
    else
      match insertPlaylistContent db ⟨playlistId, contentId.getD 0, nextOrder⟩ with
      | none => (databaseError, db)
      | some (playlistContent, db1) => (.ok 201 playlistContent, db1)

/-- Handler `GET /api/players/:playerId/playlist`; it only reads. -/
def resolveForPlayer (f : Faults) (db : DB) (playerId : String) : Reply ResolvedPlaylist :=
  if f 0 then databaseError
  else
    match playlistQuery db playerId with
    | [] => .error 404 "No playlist assigned to this player"
    | playlist :: _ =>
      if f 1 then databaseError
      else .ok 200 { playlist with contents := contentsQuery db playlist.playlist_id }

/-- Handler `DELETE /api/playlists/:id`. -/
def deletePlaylist (f : Faults) (db : DB) (id : Nat) : Reply Unit × DB :=
  if f 0 then (databaseError, db)
  else (.ok 200 (), deletePlaylistRow db id)

/-- Handler `DELETE /api/contents/:id`. -/
def deleteContent (f : Faults) (db : DB) (id : Nat) : Reply Unit × DB :=
  if f 0 then (databaseError, db)
  else (.ok 200 (), deleteContentRow db id)

/-! ## Runs of requests -/

/-- One `assign` request for a fixed player: the body field and the backend faults. -/
abbrev AssignCall := Option Nat × Faults

/-- The `assign` requests of `calls` for player `playerId`, one after another:
the replies in order and the final database. -/
def runAssign (playerId : String) : DB → List AssignCall → List (Reply PlayerPlaylist) × DB
  | db, [] => ([], db)
  | db, (playlistId, f) :: calls =>
    let r := assignPlaylist f db playerId playlistId
    let rest := runAssign playerId r.2 calls
    (r.1 :: rest.1, rest.2)

/-- The playlist id of the most recent successful reply, if any. -/
def lastAssigned : List (Reply PlayerPlaylist) → Option Nat
  | [] => none
  | r :: rs =>
    match lastAssigned rs with
    | some p => some p
    | none =>
      match r with
      | .ok _ a => some a.playlist_id
      | .error _ _ => none

/-- The `playlistId` body field of the most recent request of `calls` whose reply
in `replies` is a success, if any. -/
def lastSuccessful : List AssignCall → List (Reply PlayerPlaylist) → Option (Option Nat)
  | c :: calls, r :: replies =>
    match lastSuccessful calls replies with
    | some q => some q
    | none =>
      match r with
      | .ok _ _ => some c.1
      | .error _ _ => none
  | _, _ => none

/-- The assignment rows of the external player identity `playerId`: the rows of
`player_playlists` whose `player_id` is the internal id of a player registered
under `playerId`. -/
def assignmentsOf (db : DB) (playerId : String) : List PlayerPlaylist :=
  db.player_playlists.filter fun pp =>
    db.players.any fun p => p.id == pp.player_id && p.player_id == playerId

/-- One `addContent` request: the playlist, the body field and the backend faults. -/
abbrev AddCall := Nat × Option Nat × Faults

/-- The `addContent` requests of `calls`, one after another: the final database. -/
def runAddContent : DB → List AddCall → DB
  | db, [] => db
  | db, (playlistId, contentId, f) :: calls =>
    runAddContent (addContent f db playlistId contentId).2 calls

/-- The rows of playlist `playlistId`, in the order they were appended. -/
def rowsOf (db : DB) (playlistId : Nat) : List PlaylistContent :=
  db.playlist_contents.filter (fun pc => pc.playlist_id == playlistId)

/-! ## Sample states -/

/-- The database with no rows. -/
def emptyDB : DB := ⟨[], [], [], [], [], 0⟩

/-- Player `P1` (internal id 1), playlists `Lobby` (1) and `Hallway` (2), contents 1 and 2,
`Lobby` holding content 1 then content 2, and `P1` assigned to `Lobby`. -/
def lobbyDB : DB :=
  { players := [⟨1, "P1", "loc-A", "online"⟩]
    playlists := [⟨1, "Lobby", none, 0⟩, ⟨2, "Hallway", none, 0⟩]
    contents := [⟨1, "f1.png", "C1", "image", "/uploads/f1.png"⟩,
      ⟨2, "f2.mp4", "C2", "video", "/uploads/f2.mp4"⟩]
    playlist_contents := [⟨1, 1, 1⟩, ⟨1, 2, 2⟩]
    player_playlists := [⟨1, 1⟩]
    players_id_seq := 1 }

/-- The state `lobbyDB` before any assignment. -/
def unassignedDB : DB := { lobbyDB with player_playlists := [] }

/-- Four requests for one player: playlist 1, the unknown playlist 7, playlist 2,
and a request without playlist id. -/
def sampleAssignCalls : List AssignCall :=
  [(some 1, noFault), (some 7, noFault), (some 2, noFault), (none, noFault)]

/-- Playlist 1, then playlist 2 with the insert rejected by the backend. -/
def rejectedInsertCalls : List AssignCall :=
  [(some 1, noFault), (some 2, faultAt 3)]

/-- Playlist 1, playlist 2 with the insert rejected, then playlist 2 again. -/
def retriedCalls : List AssignCall :=
  [(some 1, noFault), (some 2, faultAt 3), (some 2, noFault)]

/-- Three requests on an empty playlist 2: content 2, the unknown content 9, content 1. -/
def sampleAddCalls : List AddCall :=
  [(2, some 2, noFault), (2, some 9, noFault), (2, some 1, noFault)]

/-- The state `lobbyDB` with `P1` assigned to playlist 2 instead. -/
def hallwayDB : DB := { lobbyDB with player_playlists := [⟨1, 2⟩] }

/-! ## Registration -/

theorem falsyStr_iff (x : Option String) : falsyStr x = true ↔ x = none ∨ x = some "" := by
  cases x <;> simp [falsyStr]

/-- C8: a register request whose `playerId` or `location` is absent or empty is
answered `InvalidInput` and leaves the database as it was, whatever the backend
does; when both are present and the reply is a success, the created player row
carries the two fields, has status `online`, and is the one row appended. -/
theorem register_contract (f : Faults) (db : DB) (playerId location : Option String) :
    ((playerId = none ∨ playerId = some "" ∨ location = none ∨ location = some "") →
      (register f db playerId location).1.failure = some FailureKind.InvalidInput ∧
      (register f db playerId location).2 = db) ∧
    (∀ pid loc status player, playerId = some pid → pid ≠ "" → location = some loc → loc ≠ "" →
      (register f db playerId location).1 = Reply.ok status player →
        player.status = "online" ∧ player.player_id = pid ∧ player.location = loc ∧
        (register f db playerId location).2.players = db.players ++ [player]) := by
  constructor
  · intro h
    have hf : (falsyStr playerId || falsyStr location) = true := by
      rw [Bool.or_eq_true, falsyStr_iff, falsyStr_iff]
      tauto
    simp [register, hf, Reply.failure]
  · intro pid loc status player hp hpe hl hle hok
    subst hp hl
    have hf : (falsyStr (some pid) || falsyStr (some loc)) = false := by
      simp [falsyStr, hpe, hle]
    by_cases h0 : f 0 = true
    · simp [register, hf, h0, databaseError] at hok
    · by_cases hdup : (db.players.any fun p => p.player_id == pid || p.id == db.players_id_seq + 1) = true
      · simp [register, hf, h0, insertPlayer, hdup, databaseError] at hok
      · simp [register, hf, h0, insertPlayer, hdup] at hok ⊢
        obtain ⟨-, rfl⟩ := hok
        simp

/-- Witness for C8: registering `P1` without a location on the empty database is
`InvalidInput` and changes nothing; registering `P1` at `loc-A` succeeds with
status `online`. -/
theorem register_contract_witness :
    ((register noFault emptyDB (some "P1") none).1.failure = some FailureKind.InvalidInput ∧
      (register noFault emptyDB (some "P1") none).2 = emptyDB) ∧
    (register noFault emptyDB (some "P1") (some "loc-A")).1 =
      Reply.ok 201 ⟨1, "P1", "loc-A", "online"⟩ ∧
    (register noFault emptyDB (some "P1") (some "loc-A")).2.players =
      emptyDB.players ++ [⟨1, "P1", "loc-A", "online"⟩] :=
  ⟨(register_contract noFault emptyDB (some "P1") none).1 (by simp),
    by decide,
    ((register_contract noFault emptyDB (some "P1") (some "loc-A")).2 "P1" "loc-A" 201
      ⟨1, "P1", "loc-A", "online"⟩ rfl (by decide) rfl (by decide) (by decide)).2.2.2⟩

/-! ## Assignment -/

theorem falsyNum_iff (x : Option Nat) : falsyNum x = true ↔ x = none ∨ x = some 0 := by
  cases x <;> simp [falsyNum]

theorem selectPlayerIds_eq_nil (db : DB) (playerId : String) :
    selectPlayerIds db playerId = [] ↔ ∀ p ∈ db.players, p.player_id ≠ playerId := by
  simp [selectPlayerIds, List.filter_eq_nil_iff]

theorem selectPlaylistIds_eq_nil (db : DB) (playlistId : Nat) :
    selectPlaylistIds db playlistId = [] ↔ ∀ pl ∈ db.playlists, pl.id ≠ playlistId := by
  simp [selectPlaylistIds, List.filter_eq_nil_iff]

theorem mem_selectPlayerIds (db : DB) (playerId : String) (i : Nat) :
    i ∈ selectPlayerIds db playerId ↔ ∃ p ∈ db.players, p.player_id = playerId ∧ p.id = i := by
  simp [selectPlayerIds, and_assoc]

theorem mem_selectPlaylistIds (db : DB) (playlistId : Nat) (i : Nat) :
    i ∈ selectPlaylistIds db playlistId ↔ ∃ pl ∈ db.playlists, pl.id = playlistId ∧ pl.id = i := by
  simp [selectPlaylistIds, and_assoc]

/-- The insert of an assignment succeeds when both referenced rows exist. -/
theorem insertAssignment_eq_some (db : DB) (row : PlayerPlaylist)
    (hp : ∃ p ∈ db.players, p.id = row.player_id)
    (hl : ∃ pl ∈ db.playlists, pl.id = row.playlist_id) :
    insertAssignment db row =
      some (row, { db with player_playlists := db.player_playlists ++ [row] }) := by
  have h1 : (db.players.any fun p => p.id == row.player_id) = true := by
    simpa using hp
  have h2 : (db.playlists.any fun pl => pl.id == row.playlist_id) = true := by
    simpa using hl
  simp [insertAssignment, h1, h2]

/-- The five ways a request to `assignPlaylist` ends. -/
theorem assignPlaylist_cases (f : Faults) (db : DB) (playerId : String) (playlistId : Option Nat) :
    (falsyNum playlistId = true ∧
      assignPlaylist f db playerId playlistId = (Reply.error 400 "Playlist ID is required", db)) ∨
    (falsyNum playlistId = false ∧ f 0 = false ∧ selectPlayerIds db playerId = [] ∧
      assignPlaylist f db playerId playlistId = (Reply.error 404 "Player not found", db)) ∨
    (falsyNum playlistId = false ∧ f 0 = false ∧ f 1 = false ∧ selectPlayerIds db playerId ≠ [] ∧
      selectPlaylistIds db (playlistId.getD 0) = [] ∧
      assignPlaylist f db playerId playlistId = (Reply.error 404 "Playlist not found", db)) ∨
    (falsyNum playlistId = false ∧ (f 0 = true ∨ f 1 = true ∨ f 2 = true) ∧
      assignPlaylist f db playerId playlistId = (databaseError, db)) ∨
    (falsyNum playlistId = false ∧ f 0 = false ∧ f 1 = false ∧ f 2 = false ∧
      selectPlaylistIds db (playlistId.getD 0) ≠ [] ∧
      ∃ playerDbId rest, selectPlayerIds db playerId = playerDbId :: rest ∧
        ((f 3 = true ∧ assignPlaylist f db playerId playlistId =
            (databaseError, deleteAssignments db playerDbId)) ∨
         (f 3 = false ∧ assignPlaylist f db playerId playlistId =
            (Reply.ok 201 ⟨playerDbId, playlistId.getD 0⟩,
              { db with player_playlists :=
                  (db.player_playlists.filter fun pp => !(pp.player_id == playerDbId)) ++
                    [⟨playerDbId, playlistId.getD 0⟩] })))) := by
  by_cases hq : falsyNum playlistId = true
  · left
    simp [assignPlaylist, hq]
  right
  have hq0 : falsyNum playlistId = false := by simpa using hq
  by_cases h0 : f 0 = true
  · right; right; left
    simp [assignPlaylist, hq0, h0]
  have h0f : f 0 = false := by simpa using h0
  cases hsel : selectPlayerIds db playerId with
  | nil =>
    left
    simp [assignPlaylist, hq0, h0f, hsel]
  | cons playerDbId rest =>
    right
    by_cases h1 : f 1 = true
    · right; left
      simp [assignPlaylist, hq0, h0f, hsel, h1]
    have h1f : f 1 = false := by simpa using h1
    cases hpl : selectPlaylistIds db (playlistId.getD 0) with
    | nil =>
      left
      simp [assignPlaylist, hq0, h0f, hsel, h1f, hpl]
    | cons plId rest2 =>
      right
      by_cases h2 : f 2 = true
      · left
        simp [assignPlaylist, hq0, h0f, hsel, h1f, hpl, h2]
      have h2f : f 2 = false := by simpa using h2
      right
      refine ⟨hq0, h0f, h1f, h2f, by simp, playerDbId, rest, rfl, ?_⟩
      by_cases h3 : f 3 = true
      · left
        simp [assignPlaylist, hq0, h0f, hsel, h1f, hpl, h2f, h3]
      have h3f : f 3 = false := by simpa using h3
      right
      have hmem : playerDbId ∈ selectPlayerIds db playerId := by simp [hsel]
      obtain ⟨p, hp, -, hpid⟩ := (mem_selectPlayerIds db playerId playerDbId).1 hmem
      have hmem2 : plId ∈ selectPlaylistIds db (playlistId.getD 0) := by simp [hpl]
      obtain ⟨pl, hplm, hplid, -⟩ := (mem_selectPlaylistIds db _ plId).1 hmem2
      have hins := insertAssignment_eq_some (deleteAssignments db playerDbId)
        ⟨playerDbId, playlistId.getD 0⟩ ⟨p, hp, hpid⟩ ⟨pl, hplm, hplid⟩
      refine ⟨h3f, ?_⟩
      simp only [assignPlaylist, hq0, h0f, hsel, h1f, hpl, h2f, h3f, hins]
      simp [deleteAssignments]

/-- C10 (amended): a `playlistId` that is absent or `0` is answered `InvalidInput`
whatever the backend would do, so before any lookup; with a non-zero
`playlistId` and the lookups answered, an unknown `playerId` is `NotFound`, a
known player with an unknown playlist is `NotFound`; in all three cases the
database, and with it every existing assignment, is as before. -/
theorem assign_lookup_failures (f : Faults) (db : DB) (playerId : String)
    (playlistId : Option Nat) :
    ((playlistId = none ∨ playlistId = some 0) →
      (assignPlaylist f db playerId playlistId).1.failure = some FailureKind.InvalidInput ∧
      (assignPlaylist f db playerId playlistId).2 = db) ∧
    (∀ n, playlistId = some n → n ≠ 0 → f 0 = false →
      (∀ p ∈ db.players, p.player_id ≠ playerId) →
      (assignPlaylist f db playerId playlistId).1.failure = some FailureKind.NotFound ∧
      (assignPlaylist f db playerId playlistId).2 = db) ∧
    (∀ n, playlistId = some n → n ≠ 0 → f 0 = false → f 1 = false →
      (∃ p ∈ db.players, p.player_id = playerId) →
      (∀ pl ∈ db.playlists, pl.id ≠ n) →
      (assignPlaylist f db playerId playlistId).1.failure = some FailureKind.NotFound ∧
      (assignPlaylist f db playerId playlistId).2 = db) := by
  refine ⟨?_, ?_, ?_⟩
  · intro h
    have hq : falsyNum playlistId = true := (falsyNum_iff _).2 h
    simp [assignPlaylist, hq, Reply.failure]
  · intro n hn hn0 h0 hno
    subst hn
    have hq : falsyNum (some n) = false := by simp [falsyNum, hn0]
    have hsel := (selectPlayerIds_eq_nil db playerId).2 hno
    simp [assignPlaylist, hq, h0, hsel, Reply.failure]
  · intro n hn hn0 h0 h1 hex hno
    subst hn
    have hq : falsyNum (some n) = false := by simp [falsyNum, hn0]
    have hpl := (selectPlaylistIds_eq_nil db n).2 hno
    cases hsel : selectPlayerIds db playerId with
    | nil =>
      obtain ⟨p, hp, hpe⟩ := hex
      exact absurd hpe ((selectPlayerIds_eq_nil db playerId).1 hsel p hp)
    | cons i rest =>
      simp [assignPlaylist, hq, h0, hsel, h1, hpl, Reply.failure]

/-- Witness for C10 (amended): on `lobbyDB`, where `P1` is assigned to playlist 1,
`assign` without a playlist id, `assign` of the unknown player `P9`, and
`assign` of the unknown playlist 7 to `P1` all leave the assignment in place. -/
theorem assign_lookup_failures_witness :
    ((assignPlaylist noFault lobbyDB "P1" none).1.failure = some FailureKind.InvalidInput ∧
      (assignPlaylist noFault lobbyDB "P1" none).2 = lobbyDB) ∧
    ((assignPlaylist noFault lobbyDB "P9" (some 2)).1.failure = some FailureKind.NotFound ∧
      (assignPlaylist noFault lobbyDB "P9" (some 2)).2 = lobbyDB) ∧
    ((assignPlaylist noFault lobbyDB "P1" (some 7)).1.failure = some FailureKind.NotFound ∧
      (assignPlaylist noFault lobbyDB "P1" (some 7)).2 = lobbyDB) :=
  ⟨(assign_lookup_failures noFault lobbyDB "P1" none).1 (Or.inl rfl),
    (assign_lookup_failures noFault lobbyDB "P9" (some 2)).2.1 2 rfl (by decide) rfl (by decide),
    (assign_lookup_failures noFault lobbyDB "P1" (some 7)).2.2 7 rfl (by decide) rfl rfl
      (by decide) (by decide)⟩

/-- Counterexample for C10: no player is registered as `P1` in the empty database
and the playlist id `0` is present in the request, yet the reply is
`InvalidInput`, not `NotFound`. -/
theorem assign_zero_playlistId_invalidInput :
    (∀ p ∈ emptyDB.players, p.player_id ≠ "P1") ∧
    (assignPlaylist noFault emptyDB "P1" (some 0)).1.failure = some FailureKind.InvalidInput ∧
    (assignPlaylist noFault emptyDB "P1" (some 0)).1.failure ≠ some FailureKind.NotFound := by
  decide

/-- The first row of the player lookup is the first player registered under
`playerId`. -/
theorem find?_of_selectPlayerIds (db : DB) (playerId : String) (i : Nat) (rest : List Nat)
    (h : selectPlayerIds db playerId = i :: rest) :
    ∃ p, db.players.find? (fun r => r.player_id == playerId) = some p ∧ p.id = i := by
  unfold selectPlayerIds at h
  generalize db.players = players at h
  induction players with
  | nil => simp at h
  | cons a t ih =>
    by_cases ha : a.player_id = playerId
    · have e : (a.player_id == playerId) = true := by simpa using ha
      rw [List.filter_cons, e, if_pos rfl, List.map_cons] at h
      simp only [List.cons.injEq] at h
      exact ⟨a, by simp [List.find?_cons, e], h.1⟩
    · have e : (a.player_id == playerId) = false := by simpa using ha
      rw [List.filter_cons, e] at h
      simp only [Bool.false_eq_true, ↓reduceIte] at h
      obtain ⟨p, hp, hpi⟩ := ih h
      exact ⟨p, by simp [List.find?_cons, e, hp], hpi⟩

/-- C9 (amended): a failure reported by `assignPlaylist` leaves the database as it
was, unless it is the backend rejecting the insert (statement 3) after the guard,
both lookups and the delete went through.  In that case the reply is the
database error, and the database afterwards is the one before with every
`player_playlists` row of the resolved player (the first player registered
under `playerId`) removed and nothing inserted: the delete is not rolled
back. -/
theorem assign_failure_effect (f : Faults) (db : DB) (playerId : String)
    (playlistId : Option Nat) :
    ((assignPlaylist f db playerId playlistId).1.failure ≠ none →
      ¬ (∃ n, playlistId = some n ∧ n ≠ 0 ∧ f 0 = false ∧ f 1 = false ∧ f 2 = false ∧
          f 3 = true ∧ (∃ p ∈ db.players, p.player_id = playerId) ∧
          (∃ pl ∈ db.playlists, pl.id = n)) →
      (assignPlaylist f db playerId playlistId).2 = db) ∧
    (∀ n, playlistId = some n → n ≠ 0 → f 0 = false → f 1 = false → f 2 = false →
      f 3 = true → (∃ p ∈ db.players, p.player_id = playerId) →
      (∃ pl ∈ db.playlists, pl.id = n) →
      ∃ p, db.players.find? (fun r => r.player_id == playerId) = some p ∧
        (assignPlaylist f db playerId playlistId).1 = Reply.error 500 "Database error" ∧
        (assignPlaylist f db playerId playlistId).2 =
          { db with player_playlists :=
              db.player_playlists.filter (fun pp => !(pp.player_id == p.id)) } ∧
        (∀ pp ∈ (assignPlaylist f db playerId playlistId).2.player_playlists,
          pp ∈ db.player_playlists ∧ pp.player_id ≠ p.id)) := by
  constructor
  · intro hfail hnot
    rcases assignPlaylist_cases f db playerId playlistId with
      ⟨-, he⟩ | ⟨-, -, -, he⟩ | ⟨-, -, -, -, -, he⟩ | ⟨-, -, he⟩ |
      ⟨hq, h0, h1, h2, hpl, i, rest, hsel, ⟨h3, -⟩ | ⟨-, he⟩⟩
    · rw [he]
    · rw [he]
    · rw [he]
    · rw [he]
    · exfalso
      apply hnot
      cases playlistId with
      | none => simp [falsyNum] at hq
      | some n =>
        have hn0 : n ≠ 0 := by simpa [falsyNum] using hq
        have hi : i ∈ selectPlayerIds db playerId := by simp [hsel]
        obtain ⟨p, hp, hpx, -⟩ := (mem_selectPlayerIds db playerId i).1 hi
        have hex : ∃ pl ∈ db.playlists, pl.id = n := by
          by_contra hcon
          apply hpl
          apply (selectPlaylistIds_eq_nil db n).2
          intro pl hplm hid
          exact hcon ⟨pl, hplm, hid⟩
        exact ⟨n, rfl, hn0, h0, h1, h2, h3, ⟨p, hp, hpx⟩, hex⟩
    · rw [he] at hfail
      simp [Reply.failure] at hfail
  · intro n hn hn0 h0 h1 h2 h3 hplayer hplaylist
    subst hn
    have hq : falsyNum (some n) = false := by simp [falsyNum, hn0]
    rcases assignPlaylist_cases f db playerId (some n) with
      ⟨hq1, -⟩ | ⟨-, -, hsel, -⟩ | ⟨-, -, -, -, hpl, -⟩ | ⟨-, hf, -⟩ |
      ⟨-, -, -, -, -, i, rest, hsel, ⟨-, he⟩ | ⟨h3f, -⟩⟩
    · rw [hq] at hq1; simp at hq1
    · obtain ⟨p, hp, hpx⟩ := hplayer
      exact absurd hpx ((selectPlayerIds_eq_nil db playerId).1 hsel p hp)
    · obtain ⟨pl, hplm, hid⟩ := hplaylist
      exact absurd hid ((selectPlaylistIds_eq_nil db n).1 hpl pl hplm)
    · rcases hf with hf | hf | hf
      · rw [h0] at hf; simp at hf
      · rw [h1] at hf; simp at hf
      · rw [h2] at hf; simp at hf
    · obtain ⟨p, hfind, hpid⟩ := find?_of_selectPlayerIds db playerId i rest hsel
      subst hpid
      refine ⟨p, hfind, by rw [he]; rfl, by rw [he]; rfl, ?_⟩
      intro pp hpp
      rw [he] at hpp
      simp only [deleteAssignments, List.mem_filter] at hpp
      exact ⟨hpp.1, by simpa using hpp.2⟩
    · rw [h3] at h3f; simp at h3f

/-- Witness for C9 (amended): on `lobbyDB`, where player 1 (`P1`) is assigned to
playlist 1, the backend rejecting the delete of `assign(P1, 2)` leaves the
database as it was, while the backend rejecting the insert answers the database
error and leaves `player_playlists` without the row of player 1. -/
theorem assign_failure_effect_witness :
    (assignPlaylist (faultAt 2) lobbyDB "P1" (some 2)).2 = lobbyDB ∧
    lobbyDB.player_playlists = [⟨1, 1⟩] ∧
    (assignPlaylist (faultAt 3) lobbyDB "P1" (some 2)).2.player_playlists = [] ∧
    (∃ p, lobbyDB.players.find? (fun r => r.player_id == "P1") = some p ∧
      (assignPlaylist (faultAt 3) lobbyDB "P1" (some 2)).1 =
        Reply.error 500 "Database error" ∧
      (assignPlaylist (faultAt 3) lobbyDB "P1" (some 2)).2 =
        { lobbyDB with player_playlists :=
            lobbyDB.player_playlists.filter (fun pp => !(pp.player_id == p.id)) } ∧
      (∀ pp ∈ (assignPlaylist (faultAt 3) lobbyDB "P1" (some 2)).2.player_playlists,
        pp ∈ lobbyDB.player_playlists ∧ pp.player_id ≠ p.id)) :=
  ⟨(assign_failure_effect (faultAt 2) lobbyDB "P1" (some 2)).1 (by decide) (by
      rintro ⟨n, -, -, -, -, h2, -⟩
      exact absurd h2 (by decide)),
    by decide, by decide,
    (assign_failure_effect (faultAt 3) lobbyDB "P1" (some 2)).2 2 rfl (by decide) rfl rfl rfl rfl
      (by decide) (by decide)⟩

/-- Counterexample for C9: on `lobbyDB`, where `P1` is assigned to playlist 1, the
backend rejects the insert of `assign(P1, 2)`; the call reports a storage
failure, and afterwards `player_playlists` is empty: the previous assignment is
removed and no new one inserted. -/
theorem assign_insert_fault_loses_assignment :
    (assignPlaylist (faultAt 3) lobbyDB "P1" (some 2)).1.failure =
      some FailureKind.StorageFailure ∧
    lobbyDB.player_playlists = [⟨1, 1⟩] ∧
    (assignPlaylist (faultAt 3) lobbyDB "P1" (some 2)).2.player_playlists = [] ∧
    (assignPlaylist (faultAt 3) lobbyDB "P1" (some 2)).2.player_playlists ≠
      lobbyDB.player_playlists := by
  decide

/-! ## Adding content to a playlist -/

theorem max?_int_eq_some (l : List Int) (m : Int) :
    l.max? = some m ↔ m ∈ l ∧ ∀ x ∈ l, x ≤ m := by
  haveI : Std.Antisymm (fun (x1 x2 : Int) => x1 ≤ x2) := ⟨fun h1 h2 => le_antisymm h1 h2⟩
  apply List.max?_eq_some_iff
  · intro a; exact le_refl a
  · intro a b; exact max_choice a b
  · intro a b c; exact max_le_iff

theorem orZero_some (n : Int) : orZero (some n) = n := by
  by_cases h : n = 0 <;> simp [orZero, h]

/-- The value of `last_order || 0`: `0` on a playlist without rows, otherwise the
largest `content_order` among its rows. -/
theorem orZero_selectLastOrder (db : DB) (playlistId : Nat) :
    (rowsOf db playlistId = [] ∧ orZero (selectLastOrder db playlistId) = 0) ∨
    (∃ r ∈ rowsOf db playlistId, (∀ q ∈ rowsOf db playlistId, q.content_order ≤ r.content_order) ∧
      orZero (selectLastOrder db playlistId) = r.content_order) := by
  cases hm : selectLastOrder db playlistId with
  | none =>
    left
    have h := List.max?_eq_none_iff.1 hm
    exact ⟨by simpa [rowsOf] using h, rfl⟩
  | some m =>
    right
    obtain ⟨hmem, hle⟩ := (max?_int_eq_some _ m).1 hm
    obtain ⟨r, hr, hrm⟩ := List.mem_map.1 hmem
    refine ⟨r, hr, ?_, ?_⟩
    · intro q hq
      rw [hrm]
      exact hle _ (List.mem_map.2 ⟨q, hq, rfl⟩)
    · rw [orZero_some, hrm]

/-- The four ways a request to `addContent` ends. -/
theorem addContent_cases (f : Faults) (db : DB) (playlistId : Nat) (contentId : Option Nat) :
    (falsyNum contentId = true ∧
      addContent f db playlistId contentId = (Reply.error 400 "Content ID is required", db)) ∨
    (falsyNum contentId = false ∧ (f 0 = true ∨ f 1 = true) ∧
      addContent f db playlistId contentId = (databaseError, db)) ∨
    (falsyNum contentId = false ∧ f 0 = false ∧ f 1 = false ∧
      ((∀ pl ∈ db.playlists, pl.id ≠ playlistId) ∨ (∀ c ∈ db.contents, c.id ≠ contentId.getD 0)) ∧
      addContent f db playlistId contentId = (databaseError, db)) ∨
    (falsyNum contentId = false ∧ f 0 = false ∧ f 1 = false ∧
      (∃ pl ∈ db.playlists, pl.id = playlistId) ∧ (∃ c ∈ db.contents, c.id = contentId.getD 0) ∧
      addContent f db playlistId contentId =
        (Reply.ok 201 ⟨playlistId, contentId.getD 0, orZero (selectLastOrder db playlistId) + 1⟩,
          { db with playlist_contents := db.playlist_contents ++
              [⟨playlistId, contentId.getD 0, orZero (selectLastOrder db playlistId) + 1⟩] })) := by
  by_cases hq : falsyNum contentId = true
  · left
    simp [addContent, hq]
  right
  have hq0 : falsyNum contentId = false := by simpa using hq
  by_cases h0 : f 0 = true
  · left
    simp [addContent, hq0, h0]
  have h0f : f 0 = false := by simpa using h0
  by_cases h1 : f 1 = true
  · left
    simp [addContent, hq0, h0f, h1]
  have h1f : f 1 = false := by simpa using h1
  right
  by_cases hpl : ∃ pl ∈ db.playlists, pl.id = playlistId
  · by_cases hc : ∃ c ∈ db.contents, c.id = contentId.getD 0
    · right
      have e1 : (db.playlists.any fun pl => pl.id == playlistId) = true := by simpa using hpl
      have e2 : (db.contents.any fun c => c.id == contentId.getD 0) = true := by simpa using hc
      refine ⟨hq0, h0f, h1f, hpl, hc, ?_⟩
      simp [addContent, hq0, h0f, h1f, insertPlaylistContent, e1, e2]
    · left
      have e2 : (db.contents.any fun c => c.id == contentId.getD 0) = false := by
        simpa using hc
      refine ⟨hq0, h0f, h1f, Or.inr (by simpa using hc), ?_⟩
      simp [addContent, hq0, h0f, h1f, insertPlaylistContent, e2]
  · left
    have e1 : (db.playlists.any fun pl => pl.id == playlistId) = false := by
      simpa using hpl
    refine ⟨hq0, h0f, h1f, Or.inl (by simpa using hpl), ?_⟩
    simp [addContent, hq0, h0f, h1f, insertPlaylistContent, e1]

/-- C2: when `addContent` succeeds, exactly one row is appended to
`playlist_contents`; it is the row of the reply, it names the playlist and the
content of the request, and its `content_order` is 1 when the playlist had no
rows and otherwise one more than the greatest `content_order` among the rows
the playlist had. -/
theorem addContent_next_order (f : Faults) (db : DB) (playlistId : Nat) (contentId : Option Nat)
    (status : Nat) (row : PlaylistContent)
    (h : (addContent f db playlistId contentId).1 = Reply.ok status row) :
    (addContent f db playlistId contentId).2 =
      { db with playlist_contents := db.playlist_contents ++ [row] } ∧
    row.playlist_id = playlistId ∧ contentId = some row.content_id ∧
    (rowsOf db playlistId = [] → row.content_order = 1) ∧
    (rowsOf db playlistId ≠ [] →
      ∃ r ∈ rowsOf db playlistId,
        (∀ q ∈ rowsOf db playlistId, q.content_order ≤ r.content_order) ∧
        row.content_order = r.content_order + 1) := by
  rcases addContent_cases f db playlistId contentId with
    ⟨-, he⟩ | ⟨-, -, he⟩ | ⟨-, -, -, -, he⟩ | ⟨hq, -, -, -, -, he⟩
  · rw [he] at h; simp at h
  · rw [he] at h; simp [databaseError] at h
  · rw [he] at h; simp [databaseError] at h
  · rw [he] at h ⊢
    simp only [Reply.ok.injEq] at h
    obtain ⟨-, rfl⟩ := h
    refine ⟨rfl, rfl, ?_, ?_, ?_⟩
    · cases contentId with
      | none => simp [falsyNum] at hq
      | some c => rfl
    · intro hempty
      rcases orZero_selectLastOrder db playlistId with ⟨-, h0⟩ | ⟨r, hr, -, -⟩
      · simp [h0]
      · rw [hempty] at hr; simp at hr
    · intro hne
      rcases orZero_selectLastOrder db playlistId with ⟨hempty, -⟩ | ⟨r, hr, hmax, h0⟩
      · exact absurd hempty hne
      · exact ⟨r, hr, hmax, by simp [h0]⟩

/-- Witness for C2: on `lobbyDB`, playlist 1 holds rows of order 1 and 2 and adding
content 1 to it succeeds with order 3, one more than the greatest order 2;
playlist 2 holds no row and adding content 2 to it succeeds with order 1. -/
theorem addContent_next_order_witness :
    (rowsOf lobbyDB 1).map (fun pc => pc.content_order) = [1, 2] ∧
    (addContent noFault lobbyDB 1 (some 1)).1 = Reply.ok 201 ⟨1, 1, 3⟩ ∧
    (addContent noFault lobbyDB 1 (some 1)).2 =
      { lobbyDB with playlist_contents := lobbyDB.playlist_contents ++ [⟨1, 1, 3⟩] } ∧
    (∃ r ∈ rowsOf lobbyDB 1,
      (∀ q ∈ rowsOf lobbyDB 1, q.content_order ≤ r.content_order) ∧
      (⟨1, 1, 3⟩ : PlaylistContent).content_order = r.content_order + 1) ∧
    rowsOf lobbyDB 2 = [] ∧
    (addContent noFault lobbyDB 2 (some 2)).1 = Reply.ok 201 ⟨2, 2, 1⟩ ∧
    (addContent noFault lobbyDB 2 (some 2)).2 =
      { lobbyDB with playlist_contents := lobbyDB.playlist_contents ++ [⟨2, 2, 1⟩] } :=
  ⟨by decide, by decide,
    (addContent_next_order noFault lobbyDB 1 (some 1) 201 ⟨1, 1, 3⟩ (by decide)).1,
    (addContent_next_order noFault lobbyDB 1 (some 1) 201 ⟨1, 1, 3⟩ (by decide)).2.2.2.2
      (by decide),
    by decide, by decide,
    (addContent_next_order noFault lobbyDB 2 (some 2) 201 ⟨2, 2, 1⟩ (by decide)).1⟩

/-- C5 (what the code does): with a truthy `contentId` and a playlist id or a
content id that matches no row, `addContent` answers the database error of its
`catch` block, status 500, whose kind is `StorageFailure` and not `NotFound`,
and leaves the database as it was. -/
theorem addContent_unknown_id_databaseError (f : Faults) (db : DB) (playlistId : Nat)
    (contentId : Option Nat) (hc : falsyNum contentId = false)
    (h : (∀ pl ∈ db.playlists, pl.id ≠ playlistId) ∨
      (∀ c ∈ db.contents, c.id ≠ contentId.getD 0)) :
    (addContent f db playlistId contentId).1 = Reply.error 500 "Database error" ∧
    (addContent f db playlistId contentId).1.failure = some FailureKind.StorageFailure ∧
    (addContent f db playlistId contentId).2 = db := by
  rcases addContent_cases f db playlistId contentId with
    ⟨hq, -⟩ | ⟨-, -, he⟩ | ⟨-, -, -, -, he⟩ | ⟨-, -, -, ⟨pl, hpl, hpe⟩, ⟨c, hcm, hce⟩, -⟩
  · rw [hc] at hq; simp at hq
  · rw [he]; simp [databaseError, Reply.failure]
  · rw [he]; simp [databaseError, Reply.failure]
  · rcases h with h | h
    · exact absurd hpe (h pl hpl)
    · exact absurd hce (h c hcm)

/-- Witness for C5: `addContent` of the existing content 1 to the playlist id 7,
which no playlist of `lobbyDB` has, is answered 500 and inserts nothing. -/
theorem addContent_unknown_id_databaseError_witness :
    (addContent noFault lobbyDB 7 (some 1)).1 = Reply.error 500 "Database error" ∧
    (addContent noFault lobbyDB 7 (some 1)).1.failure = some FailureKind.StorageFailure ∧
    (addContent noFault lobbyDB 7 (some 1)).2 = lobbyDB :=
  addContent_unknown_id_databaseError noFault lobbyDB 7 (some 1) (by decide)
    (Or.inl (by decide))

/-! ## Sequences of assignments -/

/-- A row counts for `playerId` exactly when its player id is selected by the lookup. -/
theorem mem_assignmentsOf (db : DB) (playerId : String) (pp : PlayerPlaylist) :
    pp ∈ assignmentsOf db playerId ↔
      pp ∈ db.player_playlists ∧ pp.player_id ∈ selectPlayerIds db playerId := by
  simp only [assignmentsOf, List.mem_filter, List.any_eq_true, Bool.and_eq_true, beq_iff_eq,
    mem_selectPlayerIds]
  constructor
  · rintro ⟨h, p, hp, h1, h2⟩
    exact ⟨h, p, hp, h2, h1⟩
  · rintro ⟨h, p, hp, h1, h2⟩
    exact ⟨h, p, hp, h2, h1⟩

theorem assignmentsOf_congr (db db1 : DB) (playerId : String)
    (h1 : db1.players = db.players) (h2 : db1.player_playlists = db.player_playlists) :
    assignmentsOf db1 playerId = assignmentsOf db playerId := by
  simp [assignmentsOf, h1, h2]

/-- Deleting the rows of the player the lookup resolves to leaves no row for
`playerId`, provided every row for `playerId` belongs to that player. -/
theorem assignmentsOf_delete (db : DB) (playerId : String) (i : Nat)
    (hJ : ∀ pp ∈ assignmentsOf db playerId, pp.player_id = i) :
    (db.player_playlists.filter fun pp => !(pp.player_id == i)).filter
      (fun pp => db.players.any fun p => p.id == pp.player_id && p.player_id == playerId) = [] := by
  rw [List.filter_eq_nil_iff]
  intro pp hpp
  rw [List.mem_filter] at hpp
  intro hany
  have hmem : pp ∈ assignmentsOf db playerId := by
    simp only [assignmentsOf, List.mem_filter]
    exact ⟨hpp.1, hany⟩
  have := hJ pp hmem
  simp [this] at hpp

/-- One `assign` request from a state in which every row for `playerId` belongs to
the player the lookup resolves to. -/
theorem assignPlaylist_step (f : Faults) (db : DB) (playerId : String) (playlistId : Option Nat)
    (hJ : ∀ pp ∈ assignmentsOf db playerId, (selectPlayerIds db playerId).head? = some pp.player_id) :
    (assignPlaylist f db playerId playlistId).2.players = db.players ∧
    (((assignPlaylist f db playerId playlistId).1.failure ≠ none ∧
        (assignmentsOf (assignPlaylist f db playerId playlistId).2 playerId
            = assignmentsOf db playerId ∨
          (f 3 = true ∧
            assignmentsOf (assignPlaylist f db playerId playlistId).2 playerId = []))) ∨
      (∃ a, (assignPlaylist f db playerId playlistId).1 = Reply.ok 201 a ∧ f 3 = false ∧
        assignmentsOf (assignPlaylist f db playerId playlistId).2 playerId = [a] ∧
        (selectPlayerIds db playerId).head? = some a.player_id)) := by
  rcases assignPlaylist_cases f db playerId playlistId with
    ⟨-, he⟩ | ⟨-, -, -, he⟩ | ⟨-, -, -, -, -, he⟩ | ⟨-, -, he⟩ |
    ⟨-, h0, h1, h2, -, i, rest, hsel, ⟨h3, he⟩ | ⟨h3, he⟩⟩
  · rw [he]; exact ⟨rfl, Or.inl ⟨by simp [Reply.failure], Or.inl rfl⟩⟩
  · rw [he]; exact ⟨rfl, Or.inl ⟨by simp [Reply.failure], Or.inl rfl⟩⟩
  · rw [he]; exact ⟨rfl, Or.inl ⟨by simp [Reply.failure], Or.inl rfl⟩⟩
  · rw [he]; exact ⟨rfl, Or.inl ⟨by simp [Reply.failure, databaseError], Or.inl rfl⟩⟩
  · rw [he]
    have hJi : ∀ pp ∈ assignmentsOf db playerId, pp.player_id = i := by
      intro pp hpp
      have := hJ pp hpp
      rw [hsel] at this
      simpa using this.symm
    refine ⟨rfl, Or.inl ⟨by simp [Reply.failure, databaseError], Or.inr ⟨h3, ?_⟩⟩⟩
    exact assignmentsOf_delete db playerId i hJi
  · rw [he]
    have hJi : ∀ pp ∈ assignmentsOf db playerId, pp.player_id = i := by
      intro pp hpp
      have := hJ pp hpp
      rw [hsel] at this
      simpa using this.symm
    refine ⟨rfl, Or.inr ⟨_, rfl, h3, ?_, by simp [hsel]⟩⟩
    have hdel := assignmentsOf_delete db playerId i hJi
    have hi : i ∈ selectPlayerIds db playerId := by simp [hsel]
    obtain ⟨p, hp, hpx, hpi⟩ := (mem_selectPlayerIds db playerId i).1 hi
    have hany : (db.players.any fun q => q.id == i && q.player_id == playerId) = true := by
      simp only [List.any_eq_true, Bool.and_eq_true, beq_iff_eq]
      exact ⟨p, hp, hpi, hpx⟩
    simp only [assignmentsOf, List.filter_append, hdel, List.nil_append]
    simp [List.filter, hany]

theorem selectPlayerIds_congr (db db1 : DB) (playerId : String)
    (h : db1.players = db.players) : selectPlayerIds db1 playerId = selectPlayerIds db playerId := by
  simp [selectPlayerIds, h]

/-- The state reached by a run of `assign` requests for one player, from a state
in which every row for `playerId` belongs to the player the lookup resolves to. -/
theorem runAssign_rows (playerId : String) (calls : List AssignCall) :
    ∀ db : DB,
    (∀ pp ∈ assignmentsOf db playerId, (selectPlayerIds db playerId).head? = some pp.player_id) →
    (lastAssigned (runAssign playerId db calls).1 = none →
      assignmentsOf (runAssign playerId db calls).2 playerId = assignmentsOf db playerId ∨
      assignmentsOf (runAssign playerId db calls).2 playerId = []) ∧
    (∀ p, lastAssigned (runAssign playerId db calls).1 = some p →
      assignmentsOf (runAssign playerId db calls).2 playerId = [] ∨
      ∃ i, assignmentsOf (runAssign playerId db calls).2 playerId = [⟨i, p⟩]) ∧
    ((∀ c ∈ calls, c.2 3 = false) →
      (lastAssigned (runAssign playerId db calls).1 = none →
        assignmentsOf (runAssign playerId db calls).2 playerId = assignmentsOf db playerId) ∧
      (∀ p, lastAssigned (runAssign playerId db calls).1 = some p →
        ∃ i, assignmentsOf (runAssign playerId db calls).2 playerId = [⟨i, p⟩])) ∧
    (∀ status a, (runAssign playerId db calls).1.getLast? = some (Reply.ok status a) →
      assignmentsOf (runAssign playerId db calls).2 playerId = [a]) := by
  induction calls with
  | nil =>
    intro db _
    simp [runAssign, lastAssigned]
  | cons c calls ih =>
    intro db hJ
    obtain ⟨q, f⟩ := c
    obtain ⟨hpl, hstep⟩ := assignPlaylist_step f db playerId q hJ
    have hsel := selectPlayerIds_congr db (assignPlaylist f db playerId q).2 playerId hpl
    have hJ1 : ∀ pp ∈ assignmentsOf (assignPlaylist f db playerId q).2 playerId,
        (selectPlayerIds (assignPlaylist f db playerId q).2 playerId).head? = some pp.player_id := by
      intro pp hpp
      rw [hsel]
      rcases hstep with ⟨-, h | ⟨-, h⟩⟩ | ⟨a, -, -, h, hh⟩
      · rw [h] at hpp; exact hJ pp hpp
      · rw [h] at hpp; simp at hpp
      · rw [h] at hpp
        simp only [List.mem_singleton] at hpp
        rw [hpp]; exact hh
    obtain ⟨ih1, ih2, ih3, ih4⟩ := ih (assignPlaylist f db playerId q).2 hJ1
    simp only [runAssign]
    refine ⟨?_, ?_, ?_, ?_⟩
    · intro hnone
      simp only [lastAssigned] at hnone
      cases hrest : lastAssigned (runAssign playerId (assignPlaylist f db playerId q).2 calls).1 with
      | some p => rw [hrest] at hnone; simp at hnone
      | none =>
        rw [hrest] at hnone
        rcases hstep with ⟨-, h | ⟨-, h⟩⟩ | ⟨a, ha, -, -, -⟩
        · rcases ih1 hrest with h1 | h1
          · left; rw [h1, h]
          · right; exact h1
        · rcases ih1 hrest with h1 | h1
          · right; rw [h1, h]
          · right; exact h1
        · rw [ha] at hnone; simp at hnone
    · intro p hsome
      simp only [lastAssigned] at hsome
      cases hrest : lastAssigned (runAssign playerId (assignPlaylist f db playerId q).2 calls).1 with
      | some p1 =>
        rw [hrest] at hsome
        simp only [Option.some.injEq] at hsome
        subst hsome
        exact ih2 p1 hrest
      | none =>
        rw [hrest] at hsome
        rcases hstep with ⟨hf, -⟩ | ⟨a, ha, -, hrows, -⟩
        · cases hr : (assignPlaylist f db playerId q).1 with
          | ok st b => rw [hr] at hf; simp [Reply.failure] at hf
          | error st m => rw [hr] at hsome; simp at hsome
        · rw [ha] at hsome
          simp only [Option.some.injEq] at hsome
          subst hsome
          rcases ih1 hrest with h1 | h1
          · right; exact ⟨a.player_id, by rw [h1, hrows]⟩
          · left; exact h1
    · intro hno
      have hf3 : f 3 = false := hno (q, f) (List.mem_cons_self _ _)
      have hno1 : ∀ c ∈ calls, c.2 3 = false := fun c hc => hno c (List.mem_cons_of_mem _ hc)
      obtain ⟨ih3a, ih3b⟩ := ih3 hno1
      constructor
      · intro hnone
        simp only [lastAssigned] at hnone
        cases hrest : lastAssigned (runAssign playerId (assignPlaylist f db playerId q).2 calls).1 with
        | some p => rw [hrest] at hnone; simp at hnone
        | none =>
          rw [hrest] at hnone
          rcases hstep with ⟨-, h | ⟨h3, -⟩⟩ | ⟨a, ha, -, -, -⟩
          · rw [ih3a hrest, h]
          · rw [hf3] at h3; simp at h3
          · rw [ha] at hnone; simp at hnone
      · intro p hsome
        simp only [lastAssigned] at hsome
        cases hrest : lastAssigned (runAssign playerId (assignPlaylist f db playerId q).2 calls).1 with
        | some p1 =>
          rw [hrest] at hsome
          simp only [Option.some.injEq] at hsome
          subst hsome
          exact ih3b p1 hrest
        | none =>
          rw [hrest] at hsome
          rcases hstep with ⟨hf, -⟩ | ⟨a, ha, -, hrows, -⟩
          · cases hr : (assignPlaylist f db playerId q).1 with
            | ok st b => rw [hr] at hf; simp [Reply.failure] at hf
            | error st m => rw [hr] at hsome; simp at hsome
          · rw [ha] at hsome
            simp only [Option.some.injEq] at hsome
            subst hsome
            exact ⟨a.player_id, by rw [ih3a hrest, hrows]⟩
    · intro status a hlast
      cases calls with
      | nil =>
        simp only [runAssign, List.getLast?_singleton, Option.some.injEq] at hlast ⊢
        rcases hstep with ⟨hf, -⟩ | ⟨b, hb, -, hrows, -⟩
        · rw [hlast] at hf; simp [Reply.failure] at hf
        · rw [hb] at hlast
          simp only [Reply.ok.injEq] at hlast
          rw [hrows, hlast.2]
      | cons c2 calls2 =>
        apply ih4 status a
        obtain ⟨q2, f2⟩ := c2
        simp only [runAssign] at hlast ⊢
        rw [List.getLast?_cons_cons] at hlast
        exact hlast

/-- A request leaves `players` and `playlists` as they were. -/
theorem assignPlaylist_frame (f : Faults) (db : DB) (playerId : String) (playlistId : Option Nat) :
    (assignPlaylist f db playerId playlistId).2.players = db.players ∧
    (assignPlaylist f db playerId playlistId).2.playlists = db.playlists := by
  rcases assignPlaylist_cases f db playerId playlistId with
    ⟨-, he⟩ | ⟨-, -, -, he⟩ | ⟨-, -, -, -, -, he⟩ | ⟨-, -, he⟩ |
    ⟨-, -, -, -, -, i, rest, -, ⟨-, he⟩ | ⟨-, he⟩⟩ <;> rw [he] <;> exact ⟨rfl, rfl⟩

/-- A successful reply carries the playlist id the request asked for. -/
theorem assignPlaylist_ok_requested (f : Faults) (db : DB) (playerId : String)
    (playlistId : Option Nat) (status : Nat) (a : PlayerPlaylist)
    (h : (assignPlaylist f db playerId playlistId).1 = Reply.ok status a) :
    playlistId = some a.playlist_id := by
  rcases assignPlaylist_cases f db playerId playlistId with
    ⟨-, he⟩ | ⟨-, -, -, he⟩ | ⟨-, -, -, -, -, he⟩ | ⟨-, -, he⟩ |
    ⟨hq, -, -, -, -, i, rest, -, ⟨-, he⟩ | ⟨-, he⟩⟩
  · rw [he] at h; simp at h
  · rw [he] at h; simp at h
  · rw [he] at h; simp at h
  · rw [he] at h; simp [databaseError] at h
  · rw [he] at h; simp [databaseError] at h
  · rw [he] at h
    simp only [Reply.ok.injEq] at h
    obtain ⟨-, rfl⟩ := h
    cases playlistId with
    | none => simp [falsyNum] at hq
    | some n => rfl

/-- One request keeps every row for `playerId` with the player the lookup
resolves to. -/
theorem assignPlaylist_step_inv (f : Faults) (db : DB) (playerId : String)
    (playlistId : Option Nat)
    (hJ : ∀ pp ∈ assignmentsOf db playerId, (selectPlayerIds db playerId).head? = some pp.player_id) :
    ∀ pp ∈ assignmentsOf (assignPlaylist f db playerId playlistId).2 playerId,
      (selectPlayerIds (assignPlaylist f db playerId playlistId).2 playerId).head?
        = some pp.player_id := by
  obtain ⟨hpl, hstep⟩ := assignPlaylist_step f db playerId playlistId hJ
  have hsel := selectPlayerIds_congr db (assignPlaylist f db playerId playlistId).2 playerId hpl
  intro pp hpp
  rw [hsel]
  rcases hstep with ⟨-, h | ⟨-, h⟩⟩ | ⟨a, -, -, h, hh⟩
  · rw [h] at hpp; exact hJ pp hpp
  · rw [h] at hpp; simp at hpp
  · rw [h] at hpp
    simp only [List.mem_singleton] at hpp
    rw [hpp]; exact hh

theorem runAssign_inv (playerId : String) (calls : List AssignCall) :
    ∀ db : DB,
    (∀ pp ∈ assignmentsOf db playerId, (selectPlayerIds db playerId).head? = some pp.player_id) →
    ∀ pp ∈ assignmentsOf (runAssign playerId db calls).2 playerId,
      (selectPlayerIds (runAssign playerId db calls).2 playerId).head? = some pp.player_id := by
  induction calls with
  | nil => intro db h; exact h
  | cons c calls ih =>
    intro db h
    obtain ⟨q, f⟩ := c
    simp only [runAssign]
    exact ih _ (assignPlaylist_step_inv f db playerId q h)

theorem runAssign_length (playerId : String) (calls : List AssignCall) :
    ∀ db : DB, (runAssign playerId db calls).1.length = calls.length := by
  induction calls with
  | nil => intro db; rfl
  | cons c calls ih =>
    intro db
    obtain ⟨q, f⟩ := c
    simp only [runAssign, List.length_cons, ih]

/-- A run over `pre ++ post` is the run over `pre` followed by the run over `post`. -/
theorem runAssign_append (playerId : String) (pre post : List AssignCall) :
    ∀ db : DB, runAssign playerId db (pre ++ post) =
      ((runAssign playerId db pre).1 ++
          (runAssign playerId (runAssign playerId db pre).2 post).1,
        (runAssign playerId (runAssign playerId db pre).2 post).2) := by
  induction pre with
  | nil => intro db; rfl
  | cons c pre ih =>
    intro db
    obtain ⟨q, f⟩ := c
    have h := ih (assignPlaylist f db playerId q).2
    rw [List.cons_append]
    simp only [runAssign]
    rw [h]
    rfl

/-- Along a run, the playlist id of the most recent successful reply is the id
that request asked for. -/
theorem lastSuccessful_runAssign (playerId : String) (calls : List AssignCall) :
    ∀ db : DB, lastSuccessful calls (runAssign playerId db calls).1 =
      (lastAssigned (runAssign playerId db calls).1).map some := by
  induction calls with
  | nil => intro db; rfl
  | cons c calls ih =>
    intro db
    obtain ⟨q, f⟩ := c
    simp only [runAssign, lastSuccessful, lastAssigned, ih]
    cases hl : lastAssigned (runAssign playerId (assignPlaylist f db playerId q).2 calls).1 with
    | some p => rfl
    | none =>
      cases hr : (assignPlaylist f db playerId q).1 with
      | ok st a =>
        have := assignPlaylist_ok_requested f db playerId q st a hr
        simp [this]
      | error st m => rfl

/-- C1 (amended): from a state with no assignment row for `playerId`, after any run
of `assign` requests for `playerId`, each with any backend behaviour, there is
at most one assignment row for `playerId`, and every such row references the
playlist id that the most recent successful request asked for; when some
request succeeded and the backend rejected no insert from that request on (here:
in a final part `post` of the run that holds a successful request), there is
exactly one row and it references that playlist id; in particular, when the
last request of the run succeeded, the rows are exactly the row of its reply,
which references the playlist id it asked for. -/
theorem assign_sequence_rows (db : DB) (playerId : String) (calls : List AssignCall)
    (h0 : assignmentsOf db playerId = []) :
    (assignmentsOf (runAssign playerId db calls).2 playerId).length ≤ 1 ∧
    (∀ pp ∈ assignmentsOf (runAssign playerId db calls).2 playerId,
      lastSuccessful calls (runAssign playerId db calls).1 = some (some pp.playlist_id)) ∧
    (∀ pre post : List AssignCall, calls = pre ++ post →
      (∀ c ∈ post, c.2 3 = false) →
      ∀ q, lastSuccessful post ((runAssign playerId db calls).1.drop pre.length) = some q →
        ∃ p, q = some p ∧
          (assignmentsOf (runAssign playerId db calls).2 playerId).map
            (fun pp => pp.playlist_id) = [p]) ∧
    (∀ (pre : List AssignCall) (q : Option Nat) (f : Faults), calls = pre ++ [(q, f)] →
      ∀ status a, (runAssign playerId db calls).1.getLast? = some (Reply.ok status a) →
        q = some a.playlist_id ∧ assignmentsOf (runAssign playerId db calls).2 playerId = [a]) := by
  have hJ : ∀ pp ∈ assignmentsOf db playerId,
      (selectPlayerIds db playerId).head? = some pp.player_id := by
    intro pp hpp
    rw [h0] at hpp
    simp at hpp
  obtain ⟨h1, h2, -, h4⟩ := runAssign_rows playerId calls db hJ
  refine ⟨?_, ?_, ?_, ?_⟩
  · cases hl : lastAssigned (runAssign playerId db calls).1 with
    | none =>
      rcases h1 hl with h | h
      · rw [h, h0]; simp
      · rw [h]; simp
    | some p =>
      rcases h2 p hl with h | ⟨i, h⟩
      · rw [h]; simp
      · rw [h]; simp
  · intro pp hpp
    rw [lastSuccessful_runAssign]
    cases hl : lastAssigned (runAssign playerId db calls).1 with
    | none =>
      rcases h1 hl with h | h
      · rw [h, h0] at hpp; simp at hpp
      · rw [h] at hpp; simp at hpp
    | some p =>
      rcases h2 p hl with h | ⟨i, h⟩
      · rw [h] at hpp; simp at hpp
      · rw [h] at hpp
        simp only [List.mem_singleton] at hpp
        rw [hpp]
        rfl
  · intro pre post hcalls hno q hq
    subst hcalls
    rw [runAssign_append] at hq ⊢
    simp only at hq ⊢
    rw [List.drop_left' (runAssign_length playerId pre db), lastSuccessful_runAssign] at hq
    have hJ1 := runAssign_inv playerId pre db hJ
    obtain ⟨-, -, h3, -⟩ := runAssign_rows playerId post (runAssign playerId db pre).2 hJ1
    cases hl : lastAssigned (runAssign playerId (runAssign playerId db pre).2 post).1 with
    | none => rw [hl] at hq; simp at hq
    | some p =>
      rw [hl] at hq
      simp only [Option.map_some', Option.some.injEq] at hq
      obtain ⟨i, hrows⟩ := (h3 hno).2 p hl
      exact ⟨p, hq.symm, by rw [hrows]; rfl⟩
  · intro pre q f hcalls status a hlast
    refine ⟨?_, h4 status a hlast⟩
    subst hcalls
    rw [runAssign_append] at hlast
    simp only [runAssign, List.getLast?_append, List.getLast?_singleton, Option.or,
      Option.some.injEq] at hlast
    exact assignPlaylist_ok_requested f _ playerId q status a hlast

/-- Witness for C1 (amended): on `unassignedDB` the run `sampleAssignCalls` for `P1`
(playlist 1, unknown playlist 7, playlist 2, no playlist id) ends with one row,
referencing playlist 2, the id the last successful request asked for; the run
`retriedCalls`, whose second insert is rejected, ends with one row referencing
playlist 2 as well, by its final part made of the third request. -/
theorem assign_sequence_rows_witness :
    assignmentsOf unassignedDB "P1" = [] ∧
    lastSuccessful sampleAssignCalls (runAssign "P1" unassignedDB sampleAssignCalls).1
      = some (some 2) ∧
    (∃ p, some 2 = some p ∧
      (assignmentsOf (runAssign "P1" unassignedDB sampleAssignCalls).2 "P1").map
        (fun pp => pp.playlist_id) = [p]) ∧
    (∃ p, some 2 = some p ∧
      (assignmentsOf (runAssign "P1" unassignedDB retriedCalls).2 "P1").map
        (fun pp => pp.playlist_id) = [p]) ∧
    (∀ pp ∈ assignmentsOf (runAssign "P1" unassignedDB retriedCalls).2 "P1",
      lastSuccessful retriedCalls (runAssign "P1" unassignedDB retriedCalls).1
        = some (some pp.playlist_id)) ∧
    assignmentsOf (runAssign "P1" unassignedDB retriedCalls).2 "P1" = [⟨1, 2⟩] :=
  ⟨by decide, by decide,
    (assign_sequence_rows unassignedDB "P1" sampleAssignCalls (by decide)).2.2.1
      [] sampleAssignCalls rfl (by decide) (some 2) (by decide),
    (assign_sequence_rows unassignedDB "P1" retriedCalls (by decide)).2.2.1
      [(some 1, noFault), (some 2, faultAt 3)] [(some 2, noFault)] rfl (by decide) (some 2)
      (by decide),
    (assign_sequence_rows unassignedDB "P1" retriedCalls (by decide)).2.1,
    ((assign_sequence_rows unassignedDB "P1" retriedCalls (by decide)).2.2.2
      [(some 1, noFault), (some 2, faultAt 3)] (some 2) noFault rfl 201 ⟨1, 2⟩ (by decide)).2⟩

/-- Counterexample for C1: on `unassignedDB`, `assign(P1, 1)` succeeds and then the
backend rejects the insert of `assign(P1, 2)`; a request has succeeded, the
most recent successful one asked for playlist 1, and yet no row for `P1` is
left. -/
theorem assign_success_then_rejected_insert_no_row :
    assignmentsOf unassignedDB "P1" = [] ∧
    (runAssign "P1" unassignedDB rejectedInsertCalls).1 =
      [Reply.ok 201 ⟨1, 1⟩, Reply.error 500 "Database error"] ∧
    lastSuccessful rejectedInsertCalls (runAssign "P1" unassignedDB rejectedInsertCalls).1
      = some (some 1) ∧
    assignmentsOf (runAssign "P1" unassignedDB rejectedInsertCalls).2 "P1" = [] := by
  decide

/-! ## Delivery -/

/-- The rows of `playlistQuery` are the playlists reached from `playerId` through a
player row and an assignment row. -/
theorem mem_playlistQuery (db : DB) (playerId : String) (r : ResolvedPlaylist) :
    r ∈ playlistQuery db playerId ↔
      ∃ pp ∈ db.player_playlists, ∃ pl ∈ db.playlists, ∃ p ∈ db.players,
        pp.playlist_id = pl.id ∧ pp.player_id = p.id ∧ p.player_id = playerId ∧
        r = ⟨pl.id, pl.name, pl.description, pl.updated_at, []⟩ := by
  simp only [playlistQuery, List.mem_flatMap, List.mem_filter, List.mem_map, beq_iff_eq]
  constructor
  · rintro ⟨pp, hpp, pl, ⟨hpl, e1⟩, p, ⟨⟨hp, e2⟩, e3⟩, rfl⟩
    exact ⟨pp, hpp, pl, hpl, p, hp, e1, e2, e3, rfl⟩
  · rintro ⟨pp, hpp, pl, hpl, p, hp, e1, e2, e3, rfl⟩
    exact ⟨pp, hpp, pl, ⟨hpl, e1⟩, p, ⟨⟨hp, e2⟩, e3⟩, rfl⟩

/-- With a working backend `resolveForPlayer` answers 404 when `playlistQuery` has
no row, and otherwise 200 with the first row and its ordered contents. -/
theorem resolveForPlayer_noFault (db : DB) (playerId : String) :
    (playlistQuery db playerId = [] ∧
      resolveForPlayer noFault db playerId =
        Reply.error 404 "No playlist assigned to this player") ∨
    (∃ r rest, playlistQuery db playerId = r :: rest ∧
      resolveForPlayer noFault db playerId =
        Reply.ok 200 { r with contents := contentsQuery db r.playlist_id }) := by
  cases h : playlistQuery db playerId with
  | nil => left; simp [resolveForPlayer, noFault, h]
  | cons r rest => right; exact ⟨r, rest, rfl, by simp [resolveForPlayer, noFault, h]⟩

theorem sorted_insertionSort_fst (l : List (Int × ContentView)) :
    (l.insertionSort (fun a b => a.1 ≤ b.1)).Sorted (fun a b => a.1 ≤ b.1) := by
  haveI : IsTotal (Int × ContentView) (fun a b => a.1 ≤ b.1) := ⟨fun a b => le_total a.1 b.1⟩
  haveI : IsTrans (Int × ContentView) (fun a b => a.1 ≤ b.1) :=
    ⟨fun _ _ _ h1 h2 => le_trans h1 h2⟩
  exact List.sorted_insertionSort _ l

/-- In a table with distinct ids the join condition `content_id = c.id` selects
exactly the one content with that id. -/
theorem filter_content_id (l : List Content) (k : Nat) (hn : (l.map fun c => c.id).Nodup)
    (hex : ∃ c ∈ l, c.id = k) :
    ((l.filter (fun c => k == c.id)).map Content.view).map (fun v => v.id) = [k] := by
  induction l with
  | nil => simp at hex
  | cons a l ih =>
    rw [List.map_cons, List.nodup_cons] at hn
    by_cases ha : k = a.id
    · subst ha
      have hnone : l.filter (fun c => a.id == c.id) = [] := by
        rw [List.filter_eq_nil_iff]
        intro c hc hkc
        apply hn.1
        rw [List.mem_map]
        have hk : a.id = c.id := by simpa using hkc
        exact ⟨c, hc, hk.symm⟩
      simp [List.filter_cons, hnone, Content.view]
    · have hex1 : ∃ c ∈ l, c.id = k := by
        obtain ⟨c, hc, hck⟩ := hex
        rcases List.mem_cons.1 hc with rfl | hc
        · exact absurd hck.symm ha
        · exact ⟨c, hc, hck⟩
      simp [List.filter_cons, ha, ih hn.2 hex1]

theorem sorted_insertionSort_order (l : List (PlaylistContent × Content)) :
    (l.insertionSort (fun a b => a.1.content_order ≤ b.1.content_order)).Sorted
      (fun a b => a.1.content_order ≤ b.1.content_order) := by
  haveI : IsTotal (PlaylistContent × Content)
      (fun a b => a.1.content_order ≤ b.1.content_order) :=
    ⟨fun a b => le_total a.1.content_order b.1.content_order⟩
  haveI : IsTrans (PlaylistContent × Content)
      (fun a b => a.1.content_order ≤ b.1.content_order) :=
    ⟨fun _ _ _ h1 h2 => le_trans h1 h2⟩
  exact List.sorted_insertionSort _ l

/-- The result of `contentsQuery` read off the tables: pair every row of the
playlist with the contents it references, order the pairs by `content_order`,
and project the content columns. -/
theorem contentsQuery_eq_pairs (db : DB) (playlistId : Nat) :
    contentsQuery db playlistId =
      (((db.playlist_contents.filter (fun pc => pc.playlist_id == playlistId)).flatMap fun pc =>
          (db.contents.filter (fun c => pc.content_id == c.id)).map fun c => (pc, c)).insertionSort
        (fun a b => a.1.content_order ≤ b.1.content_order)).map
        (fun a => ⟨a.2.id, a.2.original_name, a.2.type, a.2.url⟩) := by
  have hjoin : contentsJoin db playlistId =
      ((db.playlist_contents.filter (fun pc => pc.playlist_id == playlistId)).flatMap fun pc =>
        (db.contents.filter (fun c => pc.content_id == c.id)).map fun c => (pc, c)).map
        (fun a => (a.1.content_order, a.2.view)) := by
    simp [contentsJoin, List.map_flatMap, Function.comp_def]
  have hsort := List.map_insertionSort
    (fun a b : PlaylistContent × Content => a.1.content_order ≤ b.1.content_order)
    (fun a b : Int × ContentView => a.1 ≤ b.1)
    (fun a : PlaylistContent × Content => (a.1.content_order, a.2.view))
    ((db.playlist_contents.filter (fun pc => pc.playlist_id == playlistId)).flatMap fun pc =>
      (db.contents.filter (fun c => pc.content_id == c.id)).map fun c => (pc, c))
    (fun _ _ _ _ => Iff.rfl)
  unfold contentsQuery
  rw [hjoin, ← hsort, List.map_map]
  rfl

/-- With distinct content ids and every row pointing at an existing content, the
pairs of the join are the rows themselves, one pair per row. -/
theorem flatMap_pairs_fst (contents : List Content) (rows : List PlaylistContent)
    (hn : (contents.map fun c => c.id).Nodup)
    (hex : ∀ r ∈ rows, ∃ c ∈ contents, c.id = r.content_id) :
    (rows.flatMap fun pc =>
      (contents.filter (fun c => pc.content_id == c.id)).map fun c => (pc, c)).map
        (fun a => a.1) = rows := by
  induction rows with
  | nil => rfl
  | cons r rows ih =>
    have hlen : (contents.filter (fun c => r.content_id == c.id)).length = 1 := by
      have := congrArg List.length
        (filter_content_id contents r.content_id hn (hex r (List.mem_cons_self _ _)))
      simpa using this
    have hone : ((contents.filter (fun c => r.content_id == c.id)).map fun c => (r, c)).map
        (fun a => a.1) = [r] := by
      rw [List.map_map]
      cases hf : contents.filter (fun c => r.content_id == c.id) with
      | nil => rw [hf] at hlen; simp at hlen
      | cons c t =>
        rw [hf] at hlen
        have ht : t = [] := by
          cases t with
          | nil => rfl
          | cons _ _ => simp at hlen
        subst ht
        rfl
    rw [List.flatMap_cons, List.map_append, hone,
      ih (fun q hq => hex q (List.mem_cons_of_mem _ hq))]
    rfl

/-- C4: with a working backend, `resolveForPlayer` either answers `NotFound`, and
then no assignment row joins `playerId` (through a player row) to an existing
playlist, or it answers 200 with the metadata of a playlist that an assignment
row joins `playerId` to.  In that case the delivered contents are the content
columns of a list `rows` of pairs (row of `playlist_contents`, row of
`contents`) which holds exactly the pairs of a row of that playlist with a
content of the id the row references, each as often as the tables hold it, in
ascending `content_order`; when content ids are distinct and every row
references an existing content, that is one content per row of the playlist. -/
theorem resolveForPlayer_contract (db : DB) (playerId : String) :
    ((resolveForPlayer noFault db playerId).failure = some FailureKind.NotFound ∧
      ¬ ∃ pp ∈ db.player_playlists, ∃ pl ∈ db.playlists, ∃ p ∈ db.players,
        pp.playlist_id = pl.id ∧ pp.player_id = p.id ∧ p.player_id = playerId) ∨
    (∃ pp ∈ db.player_playlists, ∃ pl ∈ db.playlists, ∃ p ∈ db.players,
      pp.playlist_id = pl.id ∧ pp.player_id = p.id ∧ p.player_id = playerId ∧
      ∃ rows : List (PlaylistContent × Content),
        rows.Perm
          ((db.playlist_contents.filter (fun pc => pc.playlist_id == pl.id)).flatMap fun pc =>
            (db.contents.filter (fun c => pc.content_id == c.id)).map fun c => (pc, c)) ∧
        (∀ pc c, (pc, c) ∈ rows ↔
          pc ∈ db.playlist_contents ∧ pc.playlist_id = pl.id ∧
          c ∈ db.contents ∧ pc.content_id = c.id) ∧
        rows.Sorted (fun a b => a.1.content_order ≤ b.1.content_order) ∧
        resolveForPlayer noFault db playerId =
          Reply.ok 200 ⟨pl.id, pl.name, pl.description, pl.updated_at,
            rows.map (fun a => ⟨a.2.id, a.2.original_name, a.2.type, a.2.url⟩)⟩ ∧
        (((db.contents.map fun c => c.id).Nodup) →
          (∀ pc ∈ db.playlist_contents, ∃ c ∈ db.contents, c.id = pc.content_id) →
          (rows.map fun a => a.1).Perm
            (db.playlist_contents.filter (fun pc => pc.playlist_id == pl.id)))) := by
  rcases resolveForPlayer_noFault db playerId with ⟨hq, he⟩ | ⟨r, rest, hq, he⟩
  · left
    refine ⟨by rw [he]; simp [Reply.failure], ?_⟩
    rintro ⟨pp, hpp, pl, hpl, p, hp, e1, e2, e3⟩
    have : (⟨pl.id, pl.name, pl.description, pl.updated_at, []⟩ : ResolvedPlaylist) ∈
        playlistQuery db playerId :=
      (mem_playlistQuery db playerId _).2 ⟨pp, hpp, pl, hpl, p, hp, e1, e2, e3, rfl⟩
    rw [hq] at this
    simp at this
  · right
    have hmem : r ∈ playlistQuery db playerId := by simp [hq]
    obtain ⟨pp, hpp, pl, hpl, p, hp, e1, e2, e3, rfl⟩ := (mem_playlistQuery db playerId r).1 hmem
    have hperm := List.perm_insertionSort (fun a b => a.1.content_order ≤ b.1.content_order)
      ((db.playlist_contents.filter (fun pc => pc.playlist_id == pl.id)).flatMap fun pc =>
        (db.contents.filter (fun c => pc.content_id == c.id)).map fun c => (pc, c))
    refine ⟨pp, hpp, pl, hpl, p, hp, e1, e2, e3, _, hperm, ?_, sorted_insertionSort_order _,
      ?_, ?_⟩
    · intro pc c
      rw [hperm.mem_iff]
      simp only [List.mem_flatMap, List.mem_filter, List.mem_map, beq_iff_eq, Prod.mk.injEq]
      constructor
      · rintro ⟨pc1, ⟨h1, h2⟩, c1, ⟨h3, h4⟩, rfl, rfl⟩
        exact ⟨h1, h2, h3, h4⟩
      · rintro ⟨h1, h2, h3, h4⟩
        exact ⟨pc, ⟨h1, h2⟩, c, ⟨h3, h4⟩, rfl, rfl⟩
    · rw [he]
      simp only [contentsQuery_eq_pairs]
    · intro hn hfk
      refine (hperm.map (fun a => a.1)).trans ?_
      rw [flatMap_pairs_fst db.contents _ hn
        (fun q hq => hfk q (List.mem_of_mem_filter hq))]

/-- Witness for C4, the scenario of the specification: on `lobbyDB`, `P1` is
assigned to `Lobby`, which holds `C1` at order 1 and `C2` at order 2, and
resolves to `Lobby` with `C1` then `C2`; the unknown player `P9` resolves to
`NotFound`. -/
theorem resolveForPlayer_contract_witness :
    resolveForPlayer noFault lobbyDB "P1" =
      Reply.ok 200 ⟨1, "Lobby", none, 0,
        [⟨1, "C1", "image", "/uploads/f1.png"⟩, ⟨2, "C2", "video", "/uploads/f2.mp4"⟩]⟩ ∧
    (resolveForPlayer noFault lobbyDB "P9").failure = some FailureKind.NotFound ∧
    (∃ pp ∈ lobbyDB.player_playlists, ∃ pl ∈ lobbyDB.playlists, ∃ p ∈ lobbyDB.players,
      pp.playlist_id = pl.id ∧ pp.player_id = p.id ∧ p.player_id = "P1" ∧
      ∃ rows : List (PlaylistContent × Content),
        rows.Perm
          ((lobbyDB.playlist_contents.filter (fun pc => pc.playlist_id == pl.id)).flatMap fun pc =>
            (lobbyDB.contents.filter (fun c => pc.content_id == c.id)).map fun c => (pc, c)) ∧
        (∀ pc c, (pc, c) ∈ rows ↔
          pc ∈ lobbyDB.playlist_contents ∧ pc.playlist_id = pl.id ∧
          c ∈ lobbyDB.contents ∧ pc.content_id = c.id) ∧
        rows.Sorted (fun a b => a.1.content_order ≤ b.1.content_order) ∧
        resolveForPlayer noFault lobbyDB "P1" =
          Reply.ok 200 ⟨pl.id, pl.name, pl.description, pl.updated_at,
            rows.map (fun a => ⟨a.2.id, a.2.original_name, a.2.type, a.2.url⟩)⟩ ∧
        (((lobbyDB.contents.map fun c => c.id).Nodup) →
          (∀ pc ∈ lobbyDB.playlist_contents, ∃ c ∈ lobbyDB.contents, c.id = pc.content_id) →
          (rows.map fun a => a.1).Perm
            (lobbyDB.playlist_contents.filter (fun pc => pc.playlist_id == pl.id)))) :=
  ⟨by decide, by decide,
    (resolveForPlayer_contract lobbyDB "P1").resolve_left (fun h => absurd h.1 (by decide))⟩

/-! ## Sequences of additions -/

/-- One `addContent` request leaves every table but `playlist_contents` alone, and
either leaves the rows of playlist `p` alone or appends one row whose order
exceeds the order of every row `p` had. -/
theorem addContent_step (f : Faults) (db : DB) (playlistId : Nat) (contentId : Option Nat)
    (p : Nat) :
    (addContent f db playlistId contentId).2.players = db.players ∧
    (addContent f db playlistId contentId).2.playlists = db.playlists ∧
    (addContent f db playlistId contentId).2.contents = db.contents ∧
    (addContent f db playlistId contentId).2.player_playlists = db.player_playlists ∧
    (rowsOf (addContent f db playlistId contentId).2 p = rowsOf db p ∨
      ∃ row, rowsOf (addContent f db playlistId contentId).2 p = rowsOf db p ++ [row] ∧
        ∀ q ∈ rowsOf db p, q.content_order < row.content_order) := by
  rcases addContent_cases f db playlistId contentId with
    ⟨-, he⟩ | ⟨-, -, he⟩ | ⟨-, -, -, -, he⟩ | ⟨-, -, -, -, -, he⟩
  · rw [he]; exact ⟨rfl, rfl, rfl, rfl, Or.inl rfl⟩
  · rw [he]; exact ⟨rfl, rfl, rfl, rfl, Or.inl rfl⟩
  · rw [he]; exact ⟨rfl, rfl, rfl, rfl, Or.inl rfl⟩
  · rw [he]
    refine ⟨rfl, rfl, rfl, rfl, ?_⟩
    by_cases hp : playlistId = p
    · right
      subst hp
      refine ⟨⟨playlistId, contentId.getD 0, orZero (selectLastOrder db playlistId) + 1⟩, ?_, ?_⟩
      · simp [rowsOf, List.filter_append]
      · intro q hq
        rcases orZero_selectLastOrder db playlistId with ⟨hempty, -⟩ | ⟨r, -, hmax, h0⟩
        · rw [hempty] at hq; simp at hq
        · have := hmax q hq
          simp only [h0]
          omega
    · left
      simp [rowsOf, List.filter_append, hp]

/-- A run of `addContent` requests keeps the orders of playlist `p` strictly
increasing along the table, and touches no other table. -/
theorem runAddContent_sorted (p : Nat) (calls : List AddCall) :
    ∀ db : DB, (rowsOf db p).Pairwise (fun a b => a.content_order < b.content_order) →
      (runAddContent db calls).players = db.players ∧
      (runAddContent db calls).playlists = db.playlists ∧
      (runAddContent db calls).contents = db.contents ∧
      (runAddContent db calls).player_playlists = db.player_playlists ∧
      (rowsOf (runAddContent db calls) p).Pairwise
        (fun a b => a.content_order < b.content_order) := by
  induction calls with
  | nil => intro db h; exact ⟨rfl, rfl, rfl, rfl, h⟩
  | cons c calls ih =>
    intro db h
    obtain ⟨playlistId, contentId, f⟩ := c
    obtain ⟨s1, s2, s3, s4, s5⟩ := addContent_step f db playlistId contentId p
    have h1 : (rowsOf (addContent f db playlistId contentId).2 p).Pairwise
        (fun a b => a.content_order < b.content_order) := by
      rcases s5 with e | ⟨row, e, hlt⟩
      · rw [e]; exact h
      · rw [e, List.pairwise_append]
        refine ⟨h, List.pairwise_singleton _ _, ?_⟩
        intro a ha b hb
        simp only [List.mem_singleton] at hb
        rw [hb]
        exact hlt a ha
    obtain ⟨i1, i2, i3, i4, i5⟩ := ih (addContent f db playlistId contentId).2 h1
    simp only [runAddContent]
    exact ⟨i1.trans s1, i2.trans s2, i3.trans s3, i4.trans s4, i5⟩

/-- When the orders of playlist `p` increase strictly along the table, the join
of `contentsQuery` is already in ascending order and `ORDER BY` keeps it. -/
theorem contentsQuery_of_sorted (db : DB) (p : Nat)
    (h : (rowsOf db p).Pairwise (fun a b => a.content_order < b.content_order)) :
    contentsQuery db p =
      (rowsOf db p).flatMap fun pc =>
        (db.contents.filter (fun c => pc.content_id == c.id)).map Content.view := by
  have hs : (contentsJoin db p).Sorted (fun a b => a.1 ≤ b.1) := by
    unfold List.Sorted contentsJoin
    rw [List.pairwise_flatMap]
    constructor
    · intro pc _
      rw [List.pairwise_map]
      exact List.pairwise_of_forall (fun _ _ => le_refl _)
    · refine List.Pairwise.imp ?_ h
      intro a b hab x hx y hy
      simp only [List.mem_map] at hx hy
      obtain ⟨_, _, rfl⟩ := hx
      obtain ⟨_, _, rfl⟩ := hy
      exact le_of_lt hab
  unfold contentsQuery
  rw [List.Sorted.insertionSort_eq hs]
  simp [contentsJoin, rowsOf, List.map_flatMap, Function.comp_def]

/-- One `addContent` request keeps every row of playlist `p` pointing at an
existing content. -/
theorem addContent_step_content (f : Faults) (db : DB) (playlistId : Nat)
    (contentId : Option Nat) (p : Nat)
    (h : ∀ r ∈ rowsOf db p, ∃ c ∈ db.contents, c.id = r.content_id) :
    ∀ r ∈ rowsOf (addContent f db playlistId contentId).2 p,
      ∃ c ∈ (addContent f db playlistId contentId).2.contents, c.id = r.content_id := by
  rcases addContent_cases f db playlistId contentId with
    ⟨-, he⟩ | ⟨-, -, he⟩ | ⟨-, -, -, -, he⟩ | ⟨-, -, -, -, hc, he⟩
  · rw [he]; exact h
  · rw [he]; exact h
  · rw [he]; exact h
  · rw [he]
    intro r hr
    simp only [rowsOf, List.filter_append, List.mem_append, List.mem_filter, List.mem_singleton,
      beq_iff_eq] at hr
    rcases hr with hr | ⟨hr, -⟩
    · exact h r (by simpa [rowsOf] using hr)
    · subst hr
      exact hc

theorem runAddContent_content (p : Nat) (calls : List AddCall) :
    ∀ db : DB, (∀ r ∈ rowsOf db p, ∃ c ∈ db.contents, c.id = r.content_id) →
      ∀ r ∈ rowsOf (runAddContent db calls) p,
        ∃ c ∈ (runAddContent db calls).contents, c.id = r.content_id := by
  induction calls with
  | nil => intro db h; exact h
  | cons c calls ih =>
    intro db h
    obtain ⟨playlistId, contentId, f⟩ := c
    simp only [runAddContent]
    exact ih _ (addContent_step_content f db playlistId contentId p h)

/-- With distinct content ids and every row pointing at an existing content, the
contents listed row by row carry the content ids of the rows, one for one. -/
theorem flatMap_content_ids (contents : List Content) (rows : List PlaylistContent)
    (hn : (contents.map fun c => c.id).Nodup)
    (hex : ∀ r ∈ rows, ∃ c ∈ contents, c.id = r.content_id) :
    (rows.flatMap fun pc =>
      (contents.filter (fun c => pc.content_id == c.id)).map Content.view).map (fun v => v.id)
      = rows.map fun pc => pc.content_id := by
  induction rows with
  | nil => rfl
  | cons r rows ih =>
    rw [List.flatMap_cons, List.map_append, List.map_cons,
      filter_content_id contents r.content_id hn (hex r (List.mem_cons_self _ _)),
      ih (fun q hq => hex q (List.mem_cons_of_mem _ hq))]
    rfl

/-- C3: from a state in which playlist `p` has no rows, after any run of
`addContent` requests (to any playlists, with any backend behaviour) the
`content_order` values of the rows of `p`, in the order the rows were appended,
increase strictly and hold no duplicate; and for every `playerId` that has an
assignment and whose assignments all reference `p`, `resolveForPlayer` answers
200 with playlist `p` and the contents of the rows of `p` in exactly that append
order (one content per row, with the content id of the row, when content ids
are distinct). -/
theorem addContent_sequence_order (db : DB) (p : Nat) (calls : List AddCall)
    (h : rowsOf db p = []) :
    ((rowsOf (runAddContent db calls) p).map fun pc => pc.content_order).Sorted (fun a b => a < b) ∧
    ((rowsOf (runAddContent db calls) p).map fun pc => pc.content_order).Nodup ∧
    (∀ playerId : String,
      (∃ pp ∈ (runAddContent db calls).player_playlists,
        ∃ pl ∈ (runAddContent db calls).playlists, ∃ pr ∈ (runAddContent db calls).players,
          pp.playlist_id = pl.id ∧ pp.player_id = pr.id ∧ pr.player_id = playerId) →
      (∀ pp ∈ (runAddContent db calls).player_playlists,
        ∀ pr ∈ (runAddContent db calls).players,
          pp.player_id = pr.id → pr.player_id = playerId → pp.playlist_id = p) →
      ∃ pl ∈ (runAddContent db calls).playlists, pl.id = p ∧
        ∃ contents : List ContentView,
          resolveForPlayer noFault (runAddContent db calls) playerId =
            Reply.ok 200 ⟨p, pl.name, pl.description, pl.updated_at, contents⟩ ∧
          contents = ((rowsOf (runAddContent db calls) p).flatMap fun pc =>
            ((runAddContent db calls).contents.filter (fun c => pc.content_id == c.id)).map
              Content.view) ∧
          (((runAddContent db calls).contents.map fun c => c.id).Nodup →
            contents.map (fun v => v.id) =
              (rowsOf (runAddContent db calls) p).map fun pc => pc.content_id)) := by
  have hp0 : (rowsOf db p).Pairwise (fun a b => a.content_order < b.content_order) := by
    rw [h]; exact List.Pairwise.nil
  obtain ⟨-, -, -, -, hsorted⟩ := runAddContent_sorted p calls db hp0
  have hfk := runAddContent_content p calls db (by rw [h]; simp)
  have hs : ((rowsOf (runAddContent db calls) p).map fun pc => pc.content_order).Sorted
      (fun a b => a < b) := by
    unfold List.Sorted
    rw [List.pairwise_map]
    exact hsorted
  refine ⟨hs, hs.nodup, ?_⟩
  intro playerId hex hall
  rcases resolveForPlayer_noFault (runAddContent db calls) playerId with
    ⟨hq, -⟩ | ⟨r, rest, hq, he⟩
  · exfalso
    obtain ⟨pp, hpp, pl, hpl, pr, hpr, e1, e2, e3⟩ := hex
    have : (⟨pl.id, pl.name, pl.description, pl.updated_at, []⟩ : ResolvedPlaylist) ∈
        playlistQuery (runAddContent db calls) playerId :=
      (mem_playlistQuery _ playerId _).2 ⟨pp, hpp, pl, hpl, pr, hpr, e1, e2, e3, rfl⟩
    rw [hq] at this
    simp at this
  · have hmem : r ∈ playlistQuery (runAddContent db calls) playerId := by simp [hq]
    obtain ⟨pp, hpp, pl, hpl, pr, hpr, e1, e2, e3, rfl⟩ := (mem_playlistQuery _ playerId r).1 hmem
    have hid : pl.id = p := by rw [← e1]; exact hall pp hpp pr hpr e2 e3
    refine ⟨pl, hpl, hid, _, ?_, rfl, ?_⟩
    · rw [he]
      simp only [hid, contentsQuery_of_sorted _ p hsorted]
    · intro hn
      exact flatMap_content_ids _ _ hn hfk

/-- Witness for C3: on `hallwayDB`, playlist 2 has no rows and `P1` is assigned to
it; after `sampleAddCalls` its orders are 1 and 2 and `P1` resolves to the
contents 2 then 1, the order in which they were added. -/
theorem addContent_sequence_order_witness :
    rowsOf hallwayDB 2 = [] ∧
    ((rowsOf (runAddContent hallwayDB sampleAddCalls) 2).map fun pc => pc.content_order)
      = [1, 2] ∧
    ((rowsOf (runAddContent hallwayDB sampleAddCalls) 2).map fun pc => pc.content_order).Sorted
      (fun a b => a < b) ∧
    resolveForPlayer noFault (runAddContent hallwayDB sampleAddCalls) "P1" =
      Reply.ok 200 ⟨2, "Hallway", none, 0,
        [⟨2, "C2", "video", "/uploads/f2.mp4"⟩, ⟨1, "C1", "image", "/uploads/f1.png"⟩]⟩ ∧
    (∃ pl ∈ (runAddContent hallwayDB sampleAddCalls).playlists, pl.id = 2 ∧
      ∃ contents : List ContentView,
        resolveForPlayer noFault (runAddContent hallwayDB sampleAddCalls) "P1" =
          Reply.ok 200 ⟨2, pl.name, pl.description, pl.updated_at, contents⟩ ∧
        contents = ((rowsOf (runAddContent hallwayDB sampleAddCalls) 2).flatMap fun pc =>
          ((runAddContent hallwayDB sampleAddCalls).contents.filter
            (fun c => pc.content_id == c.id)).map Content.view) ∧
        (((runAddContent hallwayDB sampleAddCalls).contents.map fun c => c.id).Nodup →
          contents.map (fun v => v.id) =
            (rowsOf (runAddContent hallwayDB sampleAddCalls) 2).map fun pc => pc.content_id)) :=
  ⟨by decide, by decide,
    (addContent_sequence_order hallwayDB 2 sampleAddCalls (by decide)).1, by decide,
    (addContent_sequence_order hallwayDB 2 sampleAddCalls (by decide)).2.2 "P1"
      (by decide) (by decide)⟩

/-! ## Deleting a playlist -/

/-- C6: after a successful `DELETE /api/playlists/:id` no playlist, no
`playlist_contents` row and no `player_playlists` row references `id`, and
`resolveForPlayer` answers `NotFound` for every `playerId` whose assignment
rows all referenced `id` before the delete. -/
theorem deletePlaylist_cascade (f : Faults) (db : DB) (id : Nat) (status : Nat)
    (h : (deletePlaylist f db id).1 = Reply.ok status ()) :
    (∀ pl ∈ (deletePlaylist f db id).2.playlists, pl.id ≠ id) ∧
    (∀ pc ∈ (deletePlaylist f db id).2.playlist_contents, pc.playlist_id ≠ id) ∧
    (∀ pp ∈ (deletePlaylist f db id).2.player_playlists, pp.playlist_id ≠ id) ∧
    (∀ playerId : String,
      (∀ pp ∈ db.player_playlists, ∀ pr ∈ db.players,
        pp.player_id = pr.id → pr.player_id = playerId → pp.playlist_id = id) →
      (resolveForPlayer noFault (deletePlaylist f db id).2 playerId).failure =
        some FailureKind.NotFound) := by
  have h0 : f 0 = false := by
    by_cases h0 : f 0 = true
    · simp [deletePlaylist, h0, databaseError] at h
    · simpa using h0
  have hdb : (deletePlaylist f db id).2 = deletePlaylistRow db id := by
    simp [deletePlaylist, h0]
  rw [hdb]
  refine ⟨?_, ?_, ?_, ?_⟩
  · intro pl hpl
    simp only [deletePlaylistRow, List.mem_filter] at hpl
    simpa using hpl.2
  · intro pc hpc
    simp only [deletePlaylistRow, List.mem_filter] at hpc
    simpa using hpc.2
  · intro pp hpp
    simp only [deletePlaylistRow, List.mem_filter] at hpp
    simpa using hpp.2
  · intro playerId hall
    rcases resolveForPlayer_noFault (deletePlaylistRow db id) playerId with
      ⟨-, he⟩ | ⟨r, rest, hq, -⟩
    · rw [he]; simp [Reply.failure]
    · exfalso
      have hmem : r ∈ playlistQuery (deletePlaylistRow db id) playerId := by simp [hq]
      obtain ⟨pp, hpp, pl, -, pr, hpr, -, e2, e3, -⟩ := (mem_playlistQuery _ playerId r).1 hmem
      simp only [deletePlaylistRow, List.mem_filter] at hpp hpr
      have := hall pp hpp.1 pr hpr e2 e3
      simp [this] at hpp

/-- Witness for C6: deleting playlist 1 of `lobbyDB`, the one `P1` is assigned to,
leaves `P1` without a playlist. -/
theorem deletePlaylist_cascade_witness :
    (deletePlaylist noFault lobbyDB 1).2.playlist_contents = [] ∧
    (deletePlaylist noFault lobbyDB 1).2.player_playlists = [] ∧
    (resolveForPlayer noFault (deletePlaylist noFault lobbyDB 1).2 "P1").failure =
      some FailureKind.NotFound :=
  ⟨by decide, by decide,
    (deletePlaylist_cascade noFault lobbyDB 1 200 (by decide)).2.2.2 "P1" (by decide)⟩

/-! ## Deleting a content -/

/-- An element below every element of a list is inserted at its front. -/
theorem orderedInsert_of_forall_le (a : Int × ContentView) (l : List (Int × ContentView))
    (h : ∀ b ∈ l, a.1 ≤ b.1) :
    l.orderedInsert (fun a b => a.1 ≤ b.1) a = a :: l := by
  cases l with
  | nil => rfl
  | cons b t => exact List.orderedInsert_of_le _ t (h b (List.mem_cons_self _ _))

/-- Dropping rows from an ordered list commutes with inserting a row in order. -/
theorem filter_orderedInsert (q : Int × ContentView → Bool) (a : Int × ContentView) :
    ∀ l : List (Int × ContentView), l.Sorted (fun a b => a.1 ≤ b.1) →
      (l.orderedInsert (fun a b => a.1 ≤ b.1) a).filter q =
        if q a then (l.filter q).orderedInsert (fun a b => a.1 ≤ b.1) a else l.filter q := by
  intro l
  induction l with
  | nil => intro _; by_cases hq : q a <;> simp [hq]
  | cons b t ih =>
    intro hs
    have hbt : ∀ c ∈ t, b.1 ≤ c.1 := fun c hc => List.rel_of_sorted_cons hs c hc
    have ht := ih hs.of_cons
    by_cases hab : a.1 ≤ b.1
    · rw [List.orderedInsert_of_le _ t hab]
      by_cases hq : q a
      · have hfront : ∀ c ∈ (b :: t).filter q, a.1 ≤ c.1 := by
          intro c hc
          rcases List.mem_cons.1 (List.mem_of_mem_filter hc) with rfl | hct
          · exact hab
          · exact le_trans hab (hbt c hct)
        rw [if_pos hq, orderedInsert_of_forall_le a _ hfront, List.filter_cons_of_pos hq]
      · rw [if_neg hq, List.filter_cons_of_neg hq]
    · have hins : (b :: t).orderedInsert (fun a b => a.1 ≤ b.1) a =
          b :: t.orderedInsert (fun a b => a.1 ≤ b.1) a := by
        simp [List.orderedInsert, hab]
      rw [hins]
      by_cases hqb : q b
      · rw [List.filter_cons_of_pos hqb, ht, List.filter_cons_of_pos hqb]
        by_cases hq : q a
        · simp [hq, List.orderedInsert, hab]
        · simp [hq]
      · rw [List.filter_cons_of_neg hqb, ht, List.filter_cons_of_neg hqb]

/-- Dropping rows commutes with `ORDER BY`: the rows kept stay in the same
relative order. -/
theorem filter_insertionSort (q : Int × ContentView → Bool) (l : List (Int × ContentView)) :
    (l.filter q).insertionSort (fun a b => a.1 ≤ b.1) =
      (l.insertionSort (fun a b => a.1 ≤ b.1)).filter q := by
  induction l with
  | nil => rfl
  | cons a t ih =>
    have hr : (a :: t).insertionSort (fun a b => a.1 ≤ b.1) =
        (t.insertionSort (fun a b => a.1 ≤ b.1)).orderedInsert (fun a b => a.1 ≤ b.1) a := rfl
    rw [hr, filter_orderedInsert q a _ (sorted_insertionSort_fst t)]
    by_cases hq : q a
    · rw [List.filter_cons_of_pos hq, if_pos hq, ← ih]
      rfl
    · rw [List.filter_cons_of_neg hq, if_neg hq, ih]

/-- The contents joined to one row, after the delete of content `id`: nothing when
the row references `id`, the same contents otherwise. -/
theorem row_join_delete (contents : List Content) (id k : Nat) (o : Int) :
    ((contents.filter (fun c => k == c.id)).map (fun c => (o, c.view))).filter
        (fun a => !(a.2.id == id)) =
      if k = id then []
      else ((contents.filter (fun c => !(c.id == id))).filter (fun c => k == c.id)).map
        (fun c => (o, c.view)) := by
  by_cases hk : k = id
  · subst hk
    rw [if_pos rfl, List.filter_map, List.filter_filter, List.map_eq_nil_iff,
      List.filter_eq_nil_iff]
    intro c _
    simp only [Function.comp, Content.view, Bool.and_eq_true, Bool.not_eq_true', beq_eq_false_iff_ne,
      beq_iff_eq, not_and]
    intro h1 h2
    exact h1 h2.symm
  · rw [if_neg hk, List.filter_map, List.filter_filter, List.filter_filter]
    congr 1
    apply List.filter_congr
    intro c _
    simp only [Function.comp, Content.view]
    by_cases hc : k = c.id
    · subst hc; simp [hk]
    · have hc1 : (k == c.id) = false := by simpa using hc
      simp [hc1]

/-- The join of `contentsQuery` after the delete of content `id` is the join
before it without the rows of content `id`. -/
theorem contentsJoin_delete (db : DB) (id playlistId : Nat) :
    contentsJoin (deleteContentRow db id) playlistId =
      (contentsJoin db playlistId).filter (fun a => !(a.2.id == id)) := by
  unfold contentsJoin deleteContentRow
  simp only
  generalize db.playlist_contents = pcs
  induction pcs with
  | nil => rfl
  | cons pc t ih =>
    by_cases h2 : pc.playlist_id = playlistId
    · have e2 : (pc.playlist_id == playlistId) = true := by simpa using h2
      by_cases h1 : pc.content_id = id
      · have e1 : (!(pc.content_id == id)) = false := by simpa using h1
        rw [List.filter_cons, e1]
        simp only [Bool.false_eq_true, ↓reduceIte]
        rw [ih, List.filter_cons, e2, if_pos rfl, List.flatMap_cons, List.filter_append,
          row_join_delete, if_pos h1, List.nil_append]
      · have e1 : (!(pc.content_id == id)) = true := by simpa using h1
        rw [List.filter_cons, e1, if_pos rfl, List.filter_cons, e2, if_pos rfl,
          List.flatMap_cons, ih, List.filter_cons, e2, if_pos rfl, List.flatMap_cons,
          List.filter_append, row_join_delete, if_neg h1]
    · have e2 : (pc.playlist_id == playlistId) = false := by simpa using h2
      by_cases h1 : pc.content_id = id
      · have e1 : (!(pc.content_id == id)) = false := by simpa using h1
        rw [List.filter_cons, e1]
        simp only [Bool.false_eq_true, ↓reduceIte]
        rw [ih, List.filter_cons, e2]
        simp
      · have e1 : (!(pc.content_id == id)) = true := by simpa using h1
        rw [List.filter_cons, e1, if_pos rfl, List.filter_cons, e2]
        simp only [Bool.false_eq_true, ↓reduceIte]
        rw [ih, List.filter_cons, e2]
        simp

/-- The result of `contentsQuery` after the delete of content `id` is the result
before it with every occurrence of content `id` removed. -/
theorem contentsQuery_delete (db : DB) (id playlistId : Nat) :
    contentsQuery (deleteContentRow db id) playlistId =
      (contentsQuery db playlistId).filter (fun v => !(v.id == id)) := by
  unfold contentsQuery
  rw [contentsJoin_delete, filter_insertionSort, List.filter_map]
  rfl

/-- C7: a successful `DELETE /api/contents/:id` leaves players, playlists and
assignments as they were, leaves no content and no `playlist_contents` row with
that id, and for every `playerId` turns the reply of `resolveForPlayer` into the
same reply with every occurrence of content `id` removed from the content list,
the remaining items in the same relative order; a failed resolution stays the
same failure. -/
theorem deleteContent_keeps_order (f : Faults) (db : DB) (id : Nat) (status : Nat)
    (h : (deleteContent f db id).1 = Reply.ok status ()) :
    (deleteContent f db id).2.players = db.players ∧
    (deleteContent f db id).2.playlists = db.playlists ∧
    (deleteContent f db id).2.player_playlists = db.player_playlists ∧
    (∀ c ∈ (deleteContent f db id).2.contents, c.id ≠ id) ∧
    (∀ pc ∈ (deleteContent f db id).2.playlist_contents, pc.content_id ≠ id) ∧
    (∀ playerId : String,
      (∀ st r, resolveForPlayer noFault db playerId = Reply.ok st r →
        resolveForPlayer noFault (deleteContent f db id).2 playerId =
          Reply.ok st { r with contents := r.contents.filter (fun v => !(v.id == id)) }) ∧
      (∀ st m, resolveForPlayer noFault db playerId = Reply.error st m →
        resolveForPlayer noFault (deleteContent f db id).2 playerId = Reply.error st m)) := by
  have h0 : f 0 = false := by
    by_cases h0 : f 0 = true
    · simp [deleteContent, h0, databaseError] at h
    · simpa using h0
  have hdb : (deleteContent f db id).2 = deleteContentRow db id := by
    simp [deleteContent, h0]
  rw [hdb]
  refine ⟨rfl, rfl, rfl, ?_, ?_, ?_⟩
  · intro c hc
    simp only [deleteContentRow, List.mem_filter] at hc
    simpa using hc.2
  · intro pc hpc
    simp only [deleteContentRow, List.mem_filter] at hpc
    simpa using hpc.2
  · intro playerId
    have hq : playlistQuery (deleteContentRow db id) playerId = playlistQuery db playerId := rfl
    constructor
    · intro st r hr
      rcases resolveForPlayer_noFault db playerId with ⟨-, he⟩ | ⟨r0, rest, hq0, he⟩
      · rw [he] at hr; simp at hr
      · rw [he] at hr
        simp only [Reply.ok.injEq] at hr
        obtain ⟨rfl, rfl⟩ := hr
        simp [resolveForPlayer, noFault, hq, hq0, contentsQuery_delete]
    · intro st m hr
      rcases resolveForPlayer_noFault db playerId with ⟨hq0, he⟩ | ⟨r0, rest, -, he⟩
      · rw [he] at hr
        simp only [Reply.error.injEq] at hr
        obtain ⟨rfl, rfl⟩ := hr
        simp [resolveForPlayer, noFault, hq, hq0]
      · rw [he] at hr; simp at hr

/-- Witness for C7: deleting content 1 from `lobbyDB` leaves `P1` with `Lobby`
holding `C2` only. -/
theorem deleteContent_keeps_order_witness :
    resolveForPlayer noFault lobbyDB "P1" =
      Reply.ok 200 ⟨1, "Lobby", none, 0,
        [⟨1, "C1", "image", "/uploads/f1.png"⟩, ⟨2, "C2", "video", "/uploads/f2.mp4"⟩]⟩ ∧
    resolveForPlayer noFault (deleteContent noFault lobbyDB 1).2 "P1" =
      Reply.ok 200 ⟨1, "Lobby", none, 0, [⟨2, "C2", "video", "/uploads/f2.mp4"⟩]⟩ :=
  ⟨by decide,
    ((deleteContent_keeps_order noFault lobbyDB 1 200 (by decide)).2.2.2.2.2 "P1").1 200
      ⟨1, "Lobby", none, 0,
        [⟨1, "C1", "image", "/uploads/f1.png"⟩, ⟨2, "C2", "video", "/uploads/f2.mp4"⟩]⟩
      (by decide)⟩

end Signage
